import Mathlib

/-!
# go-conntrack: record parser and NAT classifier

A shallow embedding of `conntrack.go` (the parser `Flows`) and `filter.go`
(the classifier predicates) together with the parts of the Go standard
library they call (`strings.Split`, `strings.Fields`, `strconv.ParseUint`,
`net.ParseIP`, `net.IP.Equal`).

Modelling conventions.

* A Go `string` is a `List Char`: the text is taken as a sequence of Unicode
  code points (valid UTF-8).  All separators the program uses (`\n`, `=`) and
  all digits are ASCII, so splitting by code point and by byte agree.
* A `net.IP` is a list of bytes (`List Nat`); the nil address is `[]`.
* `uint16` / `uint64` are `Nat` with an explicit `% 2 ^ 16` / `% 2 ^ 64` where
  the program converts or could wrap.
* A Go `map[string]string` is a finite partial function `Str → Option Str`.
* A run-time panic is the `error` side of `Except Panic`.
* The file read by `ioutil.ReadFile` is an input `Except GoError Str`.
* The IPv6 branch of `net.ParseIP` is a parameter `parseIPv6`; every theorem
  holds for every choice of it.
* The process-wide `localIPs` registry is a parameter of the classifiers.
-/

set_option maxRecDepth 100000

namespace Conntrack

/-- A Go string. -/
abbrev Str := List Char

/-- A Go string literal. -/
def lit (s : String) : Str := s.toList

/-- A Go `net.IP`: a byte slice, nil when empty. -/
abbrev IP := List Nat

/-- A Go `error` value that is not nil. -/
abbrev GoError := Str

/-- Run-time panics the parser can raise. -/
inductive Panic where
  | indexOutOfRange (index length : Nat)
  | sliceOutOfRange (low length : Nat)
  deriving DecidableEq, Repr

/-- The `Subflow` struct of conntrack.go. -/
structure Subflow where
  Source : IP
  Destination : IP
  SPort : Nat
  DPort : Nat
  Bytes : Nat
  Packets : Nat
  deriving DecidableEq, Repr

/-- The `Flow` struct of conntrack.go. -/
structure Flow where
  Original : Subflow
  Reply : Subflow
  Protocol : Str
  State : Str
  Unreplied : Bool
  Assured : Bool
  TTL : Nat
  deriving DecidableEq, Repr

/-- The `FlowSlice` type of conntrack.go. -/
abbrev FlowSlice := List Flow

/-- A `*net.IPNet`: an address with its mask. -/
structure IPNet where
  IP : IP
  Mask : List Nat
  deriving DecidableEq, Repr

/-! ## Standard library: strings -/

/-- Go `unicode.IsSpace`. -/
def isSpace (c : Char) : Bool :=
  let r := c.toNat
  r == 0x09 || r == 0x0A || r == 0x0B || r == 0x0C || r == 0x0D || r == 0x20 ||
  r == 0x85 || r == 0xA0 || r == 0x1680 || (0x2000 ≤ r && r ≤ 0x200A) ||
  r == 0x2028 || r == 0x2029 || r == 0x202F || r == 0x205F || r == 0x3000

/-- Scanner of `strings.Fields`: `cur` is the field being collected. -/
def fieldsGo : List Char → Str → List Str
  | [], cur => if cur = [] then [] else [cur]
  | c :: cs, cur =>
    if isSpace c then
      if cur = [] then fieldsGo cs [] else cur :: fieldsGo cs []
    else fieldsGo cs (cur ++ [c])

/-- Go `strings.Fields`: the maximal runs of non-space characters. -/
def Fields (s : Str) : List Str := fieldsGo s []

/-- Scanner of `strings.Split` for a one-character separator. -/
def splitGo (sep : Char) : List Char → Str → List Str
  | [], cur => [cur]
  | c :: cs, cur =>
    if c = sep then cur :: splitGo sep cs [] else splitGo sep cs (cur ++ [c])

/-- Go `strings.Split(s, sep)` for a separator `sep` of one character (the
program only calls it with `"\n"` and `"="`). -/
def Split (s : Str) (sep : Char) : List Str := splitGo sep s []

/-! ## Standard library: strconv.ParseUint -/

/-- The two `strconv` error kinds. -/
inductive NumError where
  | ErrSyntax
  | ErrRange
  deriving DecidableEq, Repr

/-- An ASCII decimal digit. -/
def isDigit (c : Char) : Bool := 48 ≤ c.toNat && c.toNat ≤ 57

/-- The constant `maxUint64/10 + 1` of `strconv.ParseUint` for base 10. -/
def cutoff : Nat := (2 ^ 64 - 1) / 10 + 1

/-- The digit loop of `strconv.ParseUint` in base 10. Any character that is
not a decimal digit is a syntax error (letters are digits of value ten or
more, which base 10 rejects). -/
def parseUintLoop (maxVal : Nat) : List Char → Nat → Nat × Option NumError
  | [], n => (n, none)
  | c :: cs, n =>
    if isDigit c then
      let d := c.toNat - 48
      if n ≥ cutoff then (maxVal, some NumError.ErrRange)
      else
        let n10 := (n * 10) % 2 ^ 64
        let n1 := (n10 + d) % 2 ^ 64
        if n1 < n10 || n1 > maxVal then (maxVal, some NumError.ErrRange)
        else parseUintLoop maxVal cs n1
    else (0, some NumError.ErrSyntax)

/-- Go `strconv.ParseUint(s, 10, bitSize)` for `bitSize` 16 or 64: the value
and the error (`none` is nil). With a syntax error the value is 0, with a
range error it is the largest value of `bitSize` bits. -/
def ParseUint (s : Str) (bitSize : Nat) : Nat × Option NumError :=
  if s = [] then (0, some NumError.ErrSyntax)
  else parseUintLoop (2 ^ bitSize - 1) s 0

/-! ## Standard library: net -/

/-- The constant `v4InV6Prefix` of package net. -/
def v4InV6Prefix : List Nat := [0, 0, 0, 0, 0, 0, 0, 0, 0, 0, 0xff, 0xff]

/-- Go `net.IPv4(a, b, c, d)`: the 16-byte form of an IPv4 address. -/
def IPv4 (a b c d : Nat) : IP := v4InV6Prefix ++ [a, b, c, d]

/-- Go `net.IP.Equal`. -/
def IP.Equal (ip x : IP) : Bool :=
  if ip.length = x.length then decide (ip = x)
  else if ip.length = 4 ∧ x.length = 16 then
    decide (x.take 12 = v4InV6Prefix) && decide (ip = x.drop 12)
  else if ip.length = 16 ∧ x.length = 4 then
    decide (ip.take 12 = v4InV6Prefix) && decide (ip.drop 12 = x)
  else false

/-- The bound `big` of package net's number scanners. -/
def big : Nat := 0xFFFFFF

/-- The loop of `net.dtoi`: value read so far `n`, characters consumed `i`. -/
def dtoiLoop : List Char → Nat → Nat → Nat × Nat × Bool
  | [], n, i => if i = 0 then (0, 0, false) else (n, i, true)
  | c :: cs, n, i =>
    if isDigit c then
      let n1 := n * 10 + (c.toNat - 48)
      if n1 ≥ big then (big, i, false) else dtoiLoop cs n1 (i + 1)
    else if i = 0 then (0, 0, false) else (n, i, true)

/-- Go `net.dtoi`: decimal to integer, with the count of characters used. -/
def dtoi (s : Str) : Nat × Nat × Bool := dtoiLoop s 0 0

/-- The loop of `net.parseIPv4` from octet `i`, with `k` octets to go. An
octet is one to three decimal digits of value at most 255, without a leading
zero (as the library has it since Go 1.17). -/
def parseIPv4Octets : Nat → Nat → Str → Option (List Nat × Str)
  | _, 0, s => some ([], s)
  | i, k + 1, s =>
    if s.length = 0 then none
    else
      match (if i > 0 then (match s with | '.' :: t => some t | _ => none) else some s) with
      | none => none
      | some s1 =>
        match dtoi s1 with
        | (n, c, ok) =>
          if !ok || n > 0xFF then none
          else if c > 1 && s1.head? == some '0' then none
          else
            match parseIPv4Octets (i + 1) k (s1.drop c) with
            | none => none
            | some (rest, s2) => some (n % 256 :: rest, s2)

/-- Go `net.parseIPv4`: dotted decimal, nil on failure. -/
def parseIPv4 (s : Str) : IP :=
  match parseIPv4Octets 0 4 s with
  | some ([a, b, c, d], []) => IPv4 a b c d
  | _ => []

/-- The scan of `net.ParseIP` for the first `.` or `:` of `s`. -/
def parseIPScan (parseIPv6 : Str → IP) (s : Str) : List Char → IP
  | [] => []
  | c :: cs =>
    if c = '.' then parseIPv4 s
    else if c = ':' then parseIPv6 s
    else parseIPScan parseIPv6 s cs

/-- Go `net.ParseIP`. -/
def ParseIP (parseIPv6 : Str → IP) (s : Str) : IP := parseIPScan parseIPv6 s s

/-! ## conntrack.go -/

/-- A Go `map[string]string`. -/
abbrev StrMap := Str → Option Str

/-- The map made by `make(map[string]string)`. -/
def StrMap.empty : StrMap := fun _ => none

/-- The assignment `m[k] = v`. -/
def StrMap.set (m : StrMap) (k v : Str) : StrMap :=
  fun k1 => if k1 = k then some v else m k1

/-- The read `m[k]`, the empty string for a missing key. -/
def StrMap.get (m : StrMap) (k : Str) : Str := (m k).getD []

/-- The four per-line variables the token loop of `Flows` updates. -/
structure Scan where
  unreplied : Bool
  assured : Bool
  original : StrMap
  reply : StrMap

/-- The state before the token loop: flags false, both maps empty. -/
def Scan.init : Scan :=
  { unreplied := false, assured := false, original := StrMap.empty, reply := StrMap.empty }

/-- One iteration of the token loop `for _, field := range fields[3:]`. -/
def scanField (st : Scan) (field : Str) : Scan :=
  if field = (lit "[UNREPLIED]") then { st with unreplied := true }
  else if field = (lit "[ASSURED]") then { st with assured := true }
  else
    match Split field '=' with
    | [k, v] =>
      match st.original k with
      | some _ => { st with reply := st.reply.set k v }
      | none => { st with original := st.original.set k v }
    | _ => st

/-- The index expression `fields[i]`, which panics out of range. -/
def index (fields : List Str) (i : Nat) : Except Panic Str :=
  match fields.get? i with
  | some f => Except.ok f
  | none => Except.error (Panic.indexOutOfRange i fields.length)

/-- The slice expression `fields[low:]`, which panics when `low > len`. -/
def sliceFrom (fields : List Str) (low : Nat) : Except Panic (List Str) :=
  if low ≤ fields.length then Except.ok (fields.drop low)
  else Except.error (Panic.sliceOutOfRange low fields.length)

/-- The `Subflow` literal built from one of the two maps. -/
def mkSubflow (parseIPv6 : Str → IP) (m : StrMap) : Subflow :=
  { Source := ParseIP parseIPv6 (m.get (lit "src"))
    Destination := ParseIP parseIPv6 (m.get (lit "dst"))
    SPort := (ParseUint (m.get (lit "sport")) 16).1 % 2 ^ 16
    DPort := (ParseUint (m.get (lit "dport")) 16).1 % 2 ^ 16
    Bytes := (ParseUint (m.get (lit "bytes")) 64).1
    Packets := (ParseUint (m.get (lit "packets")) 64).1 }

/-- The synthesis of `flow.State` at the end of the loop body. -/
def finalState (state : Str) (unreplied assured : Bool) : Str :=
  if state = [] then
    if unreplied then (lit "UNREPLIED")
    else if assured then (lit "ASSURED")
    else state
  else state

/-- The body of the line loop of `Flows` for a line with at least one token:
the Flow appended for it, or the panic it raises. -/
def lineFlow (parseIPv6 : Str → IP) (fields : List Str) : Except Panic Flow := do
  let protocol ← index fields 0
  let ttlField ← index fields 2
  let ttl := (ParseUint ttlField 64).1
  let state ← if protocol = (lit "tcp") then index fields 3 else pure []
  let rest ← sliceFrom fields 3
  let st := rest.foldl scanField Scan.init
  pure
    { Original := mkSubflow parseIPv6 st.original
      Reply := mkSubflow parseIPv6 st.reply
      Protocol := protocol
      State := finalState state st.unreplied st.assured
      Unreplied := st.unreplied
      Assured := st.assured
      TTL := ttl }

/-- The line loop of `Flows`: `flows` is the slice built so far. -/
def flowsLoop (parseIPv6 : Str → IP) : List Str → FlowSlice → Except Panic FlowSlice
  | [], flows => Except.ok flows
  | line :: rest, flows =>
    let fields := Fields line
    if fields.length = 0 then Except.ok flows
    else
      match lineFlow parseIPv6 fields with
      | Except.error p => Except.error p
      | Except.ok flow => flowsLoop parseIPv6 rest (flows ++ [flow])

/-- The function `Flows`, given the outcome `file` of reading the table:
the returned pair of slice and error, or the panic raised. -/
def Flows (parseIPv6 : Str → IP) (file : Except GoError Str) :
    Except Panic (FlowSlice × Option GoError) :=
  match file with
  | Except.error err => Except.ok ([], some err)
  | Except.ok data =>
    match flowsLoop parseIPv6 (Split data '\n') [] with
    | Except.error p => Except.error p
    | Except.ok flows => Except.ok (flows, none)

/-! ## filter.go -/

/-- The function `isLocalIP` over the registry `localIPs`. -/
def isLocalIP (localIPs : List IPNet) (ip : IP) : Bool :=
  match localIPs with
  | [] => false
  | localIP :: rest => if IP.Equal localIP.IP ip then true else isLocalIP rest ip

/-- The function `isSNAT`. -/
def isSNAT (flow : Flow) : Bool :=
  if IP.Equal flow.Original.Source flow.Reply.Destination then false
  else if !IP.Equal flow.Original.Destination flow.Reply.Source then false
  else true

/-- The function `isDNAT`. -/
def isDNAT (flow : Flow) : Bool :=
  if IP.Equal flow.Original.Source flow.Reply.Destination &&
      !IP.Equal flow.Original.Destination flow.Reply.Source then true
  else if !IP.Equal flow.Original.Source flow.Reply.Source &&
      !IP.Equal flow.Original.Source flow.Reply.Destination &&
      !IP.Equal flow.Original.Destination flow.Reply.Source &&
      IP.Equal flow.Original.Destination flow.Reply.Destination then true
  else false

/-- The function `isLocal`. -/
def isLocal (localIPs : List IPNet) (flow : Flow) : Bool :=
  if IP.Equal flow.Original.Source flow.Reply.Destination &&
      IP.Equal flow.Original.Destination flow.Reply.Source then
    if isLocalIP localIPs flow.Original.Source || isLocalIP localIPs flow.Original.Destination ||
        isLocalIP localIPs flow.Reply.Source || isLocalIP localIPs flow.Reply.Destination then true
    else false
  else false

/-- The function `isRouted`. -/
def isRouted (localIPs : List IPNet) (flow : Flow) : Bool :=
  if IP.Equal flow.Original.Source flow.Reply.Destination &&
      IP.Equal flow.Original.Destination flow.Reply.Source then
    if !isLocalIP localIPs flow.Original.Source && !isLocalIP localIPs flow.Original.Destination &&
        !isLocalIP localIPs flow.Reply.Source && !isLocalIP localIPs flow.Reply.Destination then true
    else false
  else false

/-- The type `TypeFilter` (a `uint8` bit set). -/
abbrev TypeFilter := Nat

/-- The constant `SNATFilter`, `1 << iota` at iota 0. -/
def SNATFilter : TypeFilter := 1 <<< 0

/-- The constant `DNATFilter`, `1 << iota` at iota 1. -/
def DNATFilter : TypeFilter := 1 <<< 1

/-- The constant `RoutedFilter`, `1 << iota` at iota 2. -/
def RoutedFilter : TypeFilter := 1 <<< 2

/-- The constant `LocalFilter`, `1 << iota` at iota 3. -/
def LocalFilter : TypeFilter := 1 <<< 3

/-- The two slices `Filter` works with: its receiver `flows`, which the loop
only ranges over, and the slice `filtered` it allocates and appends to. -/
structure FilterVars where
  flows : FlowSlice
  filtered : FlowSlice

/-- One iteration of the loop of `Filter`. -/
def filterStep (filter : Flow → Bool) (vars : FilterVars) (flow : Flow) : FilterVars :=
  if filter flow then { vars with filtered := vars.filtered ++ [flow] } else vars

/-- The run of `Filter`: both slices once the loop is over. -/
def filterRun (flows : FlowSlice) (filter : Flow → Bool) : FilterVars :=
  flows.foldl (filterStep filter) { flows := flows, filtered := [] }

/-- The method `FlowSlice.Filter`: the slice it returns. -/
def FlowSlice.Filter (flows : FlowSlice) (filter : Flow → Bool) : FlowSlice :=
  (filterRun flows filter).filtered

/-- The method `FlowSlice.FilterByType`. -/
def FlowSlice.FilterByType (localIPs : List IPNet) (flows : FlowSlice) (which : TypeFilter) :
    FlowSlice :=
  let snat := decide ((which &&& SNATFilter) > 0)
  let dnat := decide ((which &&& DNATFilter) > 0)
  let local_ := decide ((which &&& LocalFilter) > 0)
  let routed := decide ((which &&& RoutedFilter) > 0)
  FlowSlice.Filter flows (fun flow =>
    (snat && isSNAT flow) || (dnat && isDNAT flow) ||
    (local_ && isLocal localIPs flow) || (routed && isRouted localIPs flow))

/-- The method `FlowSlice.FilterByProtocol`. -/
def FlowSlice.FilterByProtocol (flows : FlowSlice) (protocol : Str) : FlowSlice :=
  FlowSlice.Filter flows (fun flow => decide (flow.Protocol = protocol))

/-- The method `FlowSlice.FilterByState`. -/
def FlowSlice.FilterByState (flows : FlowSlice) (state : Str) : FlowSlice :=
  FlowSlice.Filter flows (fun flow => decide (flow.State = state))

/-! ## Test inputs -/

/-- The line of the worked example of the specification. -/
def exampleLine : Str :=
  lit ("tcp 6 999 ESTABLISHED src=10.0.0.5 dst=93.184.216.34 sport=4000 dport=80 " ++
   "packets=5 bytes=600 src=93.184.216.34 dst=203.0.113.9 sport=80 dport=4000 " ++
   "packets=3 bytes=300")

/-- The Flow the worked example describes. -/
def exampleFlow : Flow :=
  { Original :=
      { Source := IPv4 10 0 0 5, Destination := IPv4 93 184 216 34
        SPort := 4000, DPort := 80, Packets := 5, Bytes := 600 }
    Reply :=
      { Source := IPv4 93 184 216 34, Destination := IPv4 203 0 113 9
        SPort := 80, DPort := 4000, Packets := 3, Bytes := 300 }
    Protocol := (lit "tcp")
    State := (lit "ESTABLISHED")
    Unreplied := false
    Assured := false
    TTL := 999 }

/-- The well-formedness the index expressions of `lineFlow` need: at least
three tokens, and four when token 0 is `tcp`. -/
def enoughTokens (fields : List Str) : Prop :=
  3 ≤ fields.length ∧ (fields.head? = some (lit "tcp") → 4 ≤ fields.length)

instance (fields : List Str) : Decidable (enoughTokens fields) := by
  unfold enoughTokens; infer_instance

/-- The Flow that `lineFlow` builds when none of its index expressions
panics, written as a total function of the tokens. -/
def flowOf (parseIPv6 : Str → IP) (fields : List Str) : Flow :=
  let st := (fields.drop 3).foldl scanField Scan.init
  { Original := mkSubflow parseIPv6 st.original
    Reply := mkSubflow parseIPv6 st.reply
    Protocol := fields.getD 0 []
    State :=
      finalState (if fields.getD 0 [] = (lit "tcp") then fields.getD 3 [] else [])
        st.unreplied st.assured
    Unreplied := st.unreplied
    Assured := st.assured
    TTL := (ParseUint (fields.getD 2 []) 64).1 }

/-- The lines `Flows` turns into Flows: those before the first line without
a token. -/
def parsedLines (data : Str) : List Str :=
  (Split data '\n').takeWhile (fun line => decide (Fields line ≠ []))

/-- The `key=value` reading of a token: its two parts when splitting it at
`=` gives exactly two parts. -/
def kvOf (field : Str) : Option (Str × Str) :=
  match Split field '=' with
  | [k, v] => some (k, v)
  | _ => none

/-- The `key=value` tokens of a line, in order, among the tokens the token
loop reads (those from index 3 on). -/
def pairsOf (fields : List Str) : List (Str × Str) := (fields.drop 3).filterMap kvOf

/-- The number of `k=value` tokens for key `k`. -/
def occurrences (k : Str) (ps : List (Str × Str)) : Nat :=
  (ps.filter (fun p => decide (p.1 = k))).length

/-- The value of the first `k=value` token. -/
def firstVal (k : Str) : List (Str × Str) → Option Str
  | [] => none
  | (k1, v) :: ps => if k1 = k then some v else firstVal k ps

/-- The value of the last `k=value` token. -/
def lastVal (k : Str) : List (Str × Str) → Option Str
  | [] => none
  | (k1, v) :: ps =>
    match lastVal k ps with
    | some w => some w
    | none => if k1 = k then some v else none

/-- The value of the second `k=value` token. -/
def secondVal (k : Str) : List (Str × Str) → Option Str
  | [] => none
  | (k1, _) :: ps => if k1 = k then firstVal k ps else secondVal k ps

/-- The value of the last `k=value` token that comes after the first one. -/
def laterVal (k : Str) : List (Str × Str) → Option Str
  | [] => none
  | (k1, _) :: ps => if k1 = k then lastVal k ps else laterVal k ps

/-- One step of reading a decimal numeral: append the digit `c` to `n`. -/
def digitStep (n : Nat) (c : Char) : Nat := n * 10 + (c.toNat - 48)

/-- The number a string of decimal digits denotes. -/
def decimalValue (s : Str) : Nat := s.foldl digitStep 0

/-- The decimal digits a string starts with. -/
def leadingDigits (s : Str) : Str := s.takeWhile isDigit

/-- The string `v` is an unsigned decimal integer that fits `bitSize` bits:
not empty, digits only, value at most `2 ^ bitSize - 1`. -/
def parsesAs (bitSize : Nat) (v : Str) : Prop :=
  v ≠ [] ∧ v.all isDigit = true ∧ decimalValue v ≤ 2 ^ bitSize - 1

instance (bitSize : Nat) (v : Str) : Decidable (parsesAs bitSize v) := by
  unfold parsesAs; infer_instance

/-- The value a numeric field takes for a string that does not parse: the
maximum of the width when the leading digits already exceed it, else 0. -/
def failValue (bitSize : Nat) (v : Str) : Nat :=
  if decimalValue (leadingDigits v) > 2 ^ bitSize - 1 then 2 ^ bitSize - 1 else 0

/-- The zero value of `Subflow`: nil addresses, all numbers 0. -/
def zeroSubflow : Subflow :=
  { Source := [], Destination := [], SPort := 0, DPort := 0, Bytes := 0, Packets := 0 }

/-- The six keys of a tuple. -/
def tupleKeys : List Str :=
  [lit "src", lit "dst", lit "sport", lit "dport", lit "packets", lit "bytes"]

/-- A line with eight numeric values, none of which parses. -/
def badNumbersLine : Str :=
  lit ("udp 17 30 sport=70000 dport=-1 bytes=100000000000000000000 packets=x " ++
    "sport=65536 dport= bytes=1e3 packets=18446744073709551616")

/-- The number of the four classifier predicates that hold of a Flow. -/
def trueCount (localIPs : List IPNet) (flow : Flow) : Nat :=
  [isSNAT flow, isDNAT flow, isLocal localIPs flow, isRouted localIPs flow].count true

/-- The mask that is the union of the constants picked by the four flags. -/
def maskOf (snat dnat routed local_ : Bool) : TypeFilter :=
  (if snat then SNATFilter else 0) ||| (if dnat then DNATFilter else 0) |||
  (if routed then RoutedFilter else 0) ||| (if local_ then LocalFilter else 0)

/-- A Flow with the given four addresses and nothing else. -/
def flowWith (os od rs rd : IP) : Flow :=
  { Original := { zeroSubflow with Source := os, Destination := od }
    Reply := { zeroSubflow with Source := rs, Destination := rd }
    Protocol := lit "udp", State := [], Unreplied := false, Assured := false, TTL := 0 }

/-- A registry with the one entry 192.168.1.1/24. -/
def lanRegistry : List IPNet :=
  [{ IP := IPv4 192 168 1 1, Mask := [255, 255, 255, 0] }]

/-! ## Theorems -/

/-! ### The line loop -/

theorem lineFlow_eq (pv6 : Str → IP) (fields : List Str) (h : enoughTokens fields) :
    lineFlow pv6 fields = Except.ok (flowOf pv6 fields) := by
  obtain ⟨h3, h4⟩ := h
  match fields, h3, h4 with
  | [a, b, c], _, h4 =>
    have hne : ¬ a = (lit "tcp") := by
      intro heq
      have := h4 (by simp [heq])
      simp at this
    simp [lineFlow, index, sliceFrom, flowOf, bind, Except.bind, pure, Except.pure, hne]
  | a :: b :: c :: d :: rest, _, _ =>
    by_cases hp : a = (lit "tcp") <;>
      simp [lineFlow, index, sliceFrom, flowOf, bind, Except.bind, pure, Except.pure, hp]

theorem flowsLoop_spec (pv6 : Str → IP) (lines : List Str) :
    ∀ acc : FlowSlice,
      (∀ line ∈ lines.takeWhile (fun line => decide (Fields line ≠ [])),
        enoughTokens (Fields line)) →
      flowsLoop pv6 lines acc =
        Except.ok (acc ++ (lines.takeWhile (fun line => decide (Fields line ≠ []))).map
          (fun line => flowOf pv6 (Fields line))) := by
  induction lines with
  | nil => intro acc _; simp [flowsLoop]
  | cons line rest ih =>
    intro acc h
    by_cases hz : Fields line = []
    · simp [flowsLoop, hz]
    · have hlen : (Fields line).length ≠ 0 := by
        intro h0; exact hz (List.length_eq_zero.mp h0)
      have htw : (line :: rest).takeWhile (fun line => decide (Fields line ≠ [])) =
          line :: rest.takeWhile (fun line => decide (Fields line ≠ [])) := by
        simp [List.takeWhile, hz]
      rw [htw] at h ⊢
      have hline := lineFlow_eq pv6 (Fields line) (h line (List.mem_cons_self _ _))
      have hrest := ih (acc ++ [flowOf pv6 (Fields line)])
        (fun l hl => h l (List.mem_cons_of_mem _ hl))
      simp [flowsLoop, hlen, hline, hrest]

/-! ### Tokens and flags -/

theorem fieldsGo_ne_nil (s : List Char) :
    ∀ cur : Str, ∀ t ∈ fieldsGo s cur, t ≠ [] := by
  induction s with
  | nil =>
    intro cur t ht
    by_cases hc : cur = []
    · simp [fieldsGo, hc] at ht
    · simp [fieldsGo, hc] at ht
      rw [ht]; exact hc
  | cons c cs ih =>
    intro cur t ht
    by_cases hs : isSpace c = true
    · by_cases hc : cur = []
      · simp [fieldsGo, hs, hc] at ht
        exact ih [] t ht
      · simp [fieldsGo, hs, hc] at ht
        rcases ht with ht | ht
        · rw [ht]; exact hc
        · exact ih [] t ht
    · simp [fieldsGo, hs] at ht
      exact ih _ t ht

theorem Fields_ne_nil (line : Str) : ∀ t ∈ Fields line, t ≠ [] :=
  fieldsGo_ne_nil line []

theorem scanField_unreplied (st : Scan) (field : Str) :
    (scanField st field).unreplied =
      (st.unreplied || decide (field = (lit "[UNREPLIED]"))) := by
  unfold scanField
  split_ifs with h1 h2
  · simp [h1]
  · simp [h1]
  · split
    · split <;> simp [h1]
    · simp [h1]

theorem scanField_assured (st : Scan) (field : Str) :
    (scanField st field).assured =
      (st.assured || decide (field = (lit "[ASSURED]"))) := by
  unfold scanField
  split_ifs with h1 h2
  · have hne : ¬ lit "[UNREPLIED]" = lit "[ASSURED]" := by decide
    simp [h1, hne]
  · simp [h2]
  · split
    · split <;> simp [h2]
    · simp [h2]

theorem foldl_unreplied (ts : List Str) :
    ∀ st : Scan, (ts.foldl scanField st).unreplied =
      (st.unreplied || decide ((lit "[UNREPLIED]") ∈ ts)) := by
  induction ts with
  | nil => intro st; simp
  | cons t ts ih =>
    intro st
    rw [List.foldl_cons, ih, scanField_unreplied]
    by_cases h : t = (lit "[UNREPLIED]")
    · simp [h]
    · have h2 : ¬ (lit "[UNREPLIED]") = t := fun e => h e.symm
      simp only [List.mem_cons, h, h2, decide_False, Bool.or_false, false_or]

theorem foldl_assured (ts : List Str) :
    ∀ st : Scan, (ts.foldl scanField st).assured =
      (st.assured || decide ((lit "[ASSURED]") ∈ ts)) := by
  induction ts with
  | nil => intro st; simp
  | cons t ts ih =>
    intro st
    rw [List.foldl_cons, ih, scanField_assured]
    by_cases h : t = (lit "[ASSURED]")
    · simp [h]
    · have h2 : ¬ (lit "[ASSURED]") = t := fun e => h e.symm
      simp only [List.mem_cons, h, h2, decide_False, Bool.or_false, false_or]

/-! ### The two maps -/

theorem kvOf_unreplied : kvOf (lit "[UNREPLIED]") = none := by decide

theorem kvOf_assured : kvOf (lit "[ASSURED]") = none := by decide

theorem scanField_original (st : Scan) (field : Str) :
    (scanField st field).original =
      match kvOf field with
      | none => st.original
      | some (k, v) =>
        match st.original k with
        | some _ => st.original
        | none => st.original.set k v := by
  unfold scanField
  split_ifs with h1 h2
  · rw [h1, kvOf_unreplied]
  · rw [h2, kvOf_assured]
  · unfold kvOf
    split
    · split <;> simp_all
    · split <;> simp_all

theorem scanField_reply (st : Scan) (field : Str) :
    (scanField st field).reply =
      match kvOf field with
      | none => st.reply
      | some (k, v) =>
        match st.original k with
        | some _ => st.reply.set k v
        | none => st.reply := by
  unfold scanField
  split_ifs with h1 h2
  · rw [h1, kvOf_unreplied]
  · rw [h2, kvOf_assured]
  · unfold kvOf
    split
    · split <;> simp_all
    · split <;> simp_all

theorem foldl_original (ts : List Str) :
    ∀ (st : Scan) (k : Str),
      (ts.foldl scanField st).original k =
        match st.original k with
        | some v => some v
        | none => firstVal k (ts.filterMap kvOf) := by
  induction ts with
  | nil => intro st k; cases h : st.original k <;> simp [firstVal, h]
  | cons t ts ih =>
    intro st k
    rw [List.foldl_cons, ih (scanField st t) k, scanField_original]
    cases hkv : kvOf t with
    | none => simp [List.filterMap_cons, hkv]
    | some kv =>
      obtain ⟨k1, v⟩ := kv
      cases ho : st.original k1 with
      | some w =>
        by_cases hk : k1 = k
        · subst hk; simp [List.filterMap_cons, hkv, ho]
        · cases hok : st.original k <;>
            simp [List.filterMap_cons, hkv, ho, hok, firstVal, hk]
      | none =>
        by_cases hk : k1 = k
        · subst hk; simp [List.filterMap_cons, hkv, ho, firstVal, StrMap.set]
        · have hk2 : ¬ k = k1 := fun e => hk e.symm
          cases hok : st.original k <;>
            simp [List.filterMap_cons, hkv, ho, hok, firstVal, hk, hk2, StrMap.set]

theorem foldl_reply (ts : List Str) :
    ∀ (st : Scan) (k : Str),
      (ts.foldl scanField st).reply k =
        match st.original k with
        | some _ =>
          (match lastVal k (ts.filterMap kvOf) with
            | some w => some w
            | none => st.reply k)
        | none =>
          (match laterVal k (ts.filterMap kvOf) with
            | some w => some w
            | none => st.reply k) := by
  induction ts with
  | nil => intro st k; cases h : st.original k <;> simp [lastVal, laterVal]
  | cons t ts ih =>
    intro st k
    rw [List.foldl_cons, ih (scanField st t) k, scanField_original, scanField_reply]
    cases hkv : kvOf t with
    | none => simp [List.filterMap_cons, hkv]
    | some kv =>
      obtain ⟨k1, v⟩ := kv
      cases ho : st.original k1 with
      | some w =>
        by_cases hk : k1 = k
        · subst hk
          cases hl : lastVal k1 (ts.filterMap kvOf) <;>
            simp [List.filterMap_cons, hkv, ho, lastVal, hl, StrMap.set]
        · have hk2 : ¬ k = k1 := fun e => hk e.symm
          cases hok : st.original k <;> cases hl : lastVal k (ts.filterMap kvOf) <;>
            simp [List.filterMap_cons, hkv, ho, hok, lastVal, laterVal, hl, hk, hk2, StrMap.set]
      | none =>
        by_cases hk : k1 = k
        · subst hk
          simp [List.filterMap_cons, hkv, ho, laterVal, StrMap.set]
        · have hk2 : ¬ k = k1 := fun e => hk e.symm
          cases hok : st.original k <;> cases hl : lastVal k (ts.filterMap kvOf) <;>
            simp [List.filterMap_cons, hkv, ho, hok, lastVal, laterVal, hl, hk, hk2, StrMap.set]

theorem flowOf_original_map (fields : List Str) :
    ((fields.drop 3).foldl scanField Scan.init).original =
      fun k => firstVal k (pairsOf fields) := by
  funext k
  rw [foldl_original]
  simp [Scan.init, StrMap.empty, pairsOf]

theorem flowOf_reply_map (fields : List Str) :
    ((fields.drop 3).foldl scanField Scan.init).reply =
      fun k => laterVal k (pairsOf fields) := by
  funext k
  rw [foldl_reply]
  cases h : laterVal k (pairsOf fields) <;>
    simp [Scan.init, StrMap.empty, pairsOf] <;> simp [pairsOf] at h <;> simp [h]

theorem lastVal_of_no_occurrence (k : Str) (ps : List (Str × Str))
    (h : occurrences k ps = 0) : lastVal k ps = none := by
  induction ps with
  | nil => rfl
  | cons p ps ih =>
    obtain ⟨k1, v⟩ := p
    by_cases hk : k1 = k
    · simp [occurrences, List.filter_cons, hk] at h
    · have h0 : occurrences k ps = 0 := by
        simpa [occurrences, List.filter_cons, hk] using h
      simp [lastVal, ih h0, hk]

theorem lastVal_eq_firstVal (k : Str) (ps : List (Str × Str))
    (h : occurrences k ps ≤ 1) : lastVal k ps = firstVal k ps := by
  induction ps with
  | nil => rfl
  | cons p ps ih =>
    obtain ⟨k1, v⟩ := p
    by_cases hk : k1 = k
    · have h0 : occurrences k ps = 0 := by
        simp [occurrences, List.filter_cons, hk] at h
        simpa [occurrences] using h
      simp [lastVal, firstVal, lastVal_of_no_occurrence k ps h0, hk]
    · have h1 : occurrences k ps ≤ 1 := by
        simpa [occurrences, List.filter_cons, hk] using h
      rw [lastVal, firstVal, ih h1]
      cases firstVal k ps <;> simp [hk]

theorem laterVal_eq_secondVal (k : Str) (ps : List (Str × Str))
    (h : occurrences k ps ≤ 2) : laterVal k ps = secondVal k ps := by
  induction ps with
  | nil => rfl
  | cons p ps ih =>
    obtain ⟨k1, v⟩ := p
    by_cases hk : k1 = k
    · have h1 : occurrences k ps ≤ 1 := by
        simp [occurrences, List.filter_cons, hk] at h
        simpa [occurrences] using h
      simp [laterVal, secondVal, hk, lastVal_eq_firstVal k ps h1]
    · have h2 : occurrences k ps ≤ 2 := by
        simpa [occurrences, List.filter_cons, hk] using h
      simp [laterVal, secondVal, hk, ih h2]

theorem laterVal_of_no_repeat (k : Str) (ps : List (Str × Str))
    (h : occurrences k ps ≤ 1) : laterVal k ps = none := by
  induction ps with
  | nil => rfl
  | cons p ps ih =>
    obtain ⟨k1, v⟩ := p
    by_cases hk : k1 = k
    · have h0 : occurrences k ps = 0 := by
        simp [occurrences, List.filter_cons, hk] at h
        simpa [occurrences] using h
      simp [laterVal, hk, lastVal_of_no_occurrence k ps h0]
    · have h1 : occurrences k ps ≤ 1 := by
        simpa [occurrences, List.filter_cons, hk] using h
      simp [laterVal, hk, ih h1]

/-! ### strconv.ParseUint -/

theorem foldl_digitStep_ge (ds : List Char) : ∀ n : Nat, n ≤ ds.foldl digitStep n := by
  induction ds with
  | nil => intro n; simp
  | cons c ds ih =>
    intro n
    have h1 := ih (digitStep n c)
    have h2 : n ≤ digitStep n c := by unfold digitStep; omega
    simpa using le_trans h2 h1

theorem isDigit_bounds (c : Char) (h : isDigit c = true) : 48 ≤ c.toNat ∧ c.toNat ≤ 57 := by
  simpa [isDigit] using h

theorem parseUintLoop_spec (maxVal : Nat) (hmax : maxVal < 2 ^ 64) (cs : List Char) :
    ∀ n : Nat, n ≤ maxVal →
      parseUintLoop maxVal cs n =
        if (leadingDigits cs).foldl digitStep n > maxVal then
          (maxVal, some NumError.ErrRange)
        else if (leadingDigits cs).length < cs.length then (0, some NumError.ErrSyntax)
        else ((leadingDigits cs).foldl digitStep n, none) := by
  induction cs with
  | nil =>
    intro n hn
    have : ¬ n > maxVal := by omega
    simp [parseUintLoop, leadingDigits, this]
  | cons c cs ih =>
    intro n hn
    by_cases hd : isDigit c = true
    · have hb := isDigit_bounds c hd
      have hlead : leadingDigits (c :: cs) = c :: leadingDigits cs := by
        simp [leadingDigits, List.takeWhile_cons, hd]
      have hge := foldl_digitStep_ge (leadingDigits cs) (digitStep n c)
      rw [hlead, List.foldl_cons]
      have hstep : digitStep n c = n * 10 + (c.toNat - 48) := rfl
      by_cases hc : n ≥ cutoff
      · have hbig : List.foldl digitStep (digitStep n c) (leadingDigits cs) > maxVal := by
          have : cutoff = 1844674407370955162 := by decide
          omega
        simp only [parseUintLoop, hd, hc, if_true, hbig]
      · have hlt : n < 1844674407370955162 := by
          have : cutoff = 1844674407370955162 := by decide
          omega
        have hn10 : n * 10 % 18446744073709551616 = n * 10 := Nat.mod_eq_of_lt (by omega)
        by_cases hw : n * 10 + (c.toNat - 48) < 18446744073709551616
        · have hn1 : (n * 10 + (c.toNat - 48)) % 18446744073709551616 = n * 10 + (c.toNat - 48) :=
            Nat.mod_eq_of_lt hw
          by_cases hm : n * 10 + (c.toNat - 48) > maxVal
          · have hbig : List.foldl digitStep (digitStep n c) (leadingDigits cs) > maxVal := by
              omega
            simp [parseUintLoop, hd, hc, hn10, hn1, hm, hbig]
          · have hle : digitStep n c ≤ maxVal := by omega
            have hnot : ¬ n * 10 + (c.toNat - 48) < n * 10 := by omega
            have hrec := ih (digitStep n c) hle
            rw [hstep] at hrec
            simp [parseUintLoop, hd, hc, hn10, hn1, hm, hnot, hrec, hstep]
        · have hbig : List.foldl digitStep (digitStep n c) (leadingDigits cs) > maxVal := by
            omega
          have hwrap : (n * 10 + (c.toNat - 48)) % 18446744073709551616 < n * 10 := by omega
          simp [parseUintLoop, hd, hc, hn10, hwrap, hbig]
    · have hlead : leadingDigits (c :: cs) = [] := by
        simp [leadingDigits, List.takeWhile_cons, hd]
      have : ¬ n > maxVal := by omega
      simp [parseUintLoop, hd, hlead, this]

theorem ParseUint_spec (bitSize : Nat) (hb : bitSize ≤ 64) (v : Str) :
    ParseUint v bitSize =
      if v = [] then (0, some NumError.ErrSyntax)
      else if decimalValue (leadingDigits v) > 2 ^ bitSize - 1 then
        (2 ^ bitSize - 1, some NumError.ErrRange)
      else if (leadingDigits v).length < v.length then (0, some NumError.ErrSyntax)
      else (decimalValue (leadingDigits v), none) := by
  have hpow : 2 ^ bitSize ≤ 2 ^ 64 := Nat.pow_le_pow_right (by decide) hb
  have hpos : 0 < 2 ^ bitSize := Nat.pow_pos (by decide)
  have hmax : 2 ^ bitSize - 1 < 2 ^ 64 := by omega
  unfold ParseUint
  by_cases hv : v = []
  · simp [hv]
  · simp only [hv, if_false]
    rw [parseUintLoop_spec _ hmax v 0 (Nat.zero_le _)]
    rfl

theorem leadingDigits_full (v : Str) (h : ¬ (leadingDigits v).length < v.length) :
    leadingDigits v = v ∧ v.all isDigit = true := by
  induction v with
  | nil => simp [leadingDigits]
  | cons c cs ih =>
    by_cases hd : isDigit c = true
    · have hlead : leadingDigits (c :: cs) = c :: leadingDigits cs := by
        simp [leadingDigits, List.takeWhile_cons, hd]
      rw [hlead] at h ⊢
      have h2 : ¬ (leadingDigits cs).length < cs.length := by
        simpa using h
      obtain ⟨h3, h4⟩ := ih h2
      constructor
      · rw [h3]
      · simp only [List.all_cons, hd, h4, Bool.and_self]
    · have hlead : leadingDigits (c :: cs) = [] := by
        simp [leadingDigits, List.takeWhile_cons, hd]
      rw [hlead] at h
      simp at h

theorem ParseUint_fail (bitSize : Nat) (hb : bitSize ≤ 64) (v : Str)
    (h : ¬ parsesAs bitSize v) : (ParseUint v bitSize).1 = failValue bitSize v := by
  rw [ParseUint_spec bitSize hb v]
  unfold failValue
  by_cases hv : v = []
  · subst hv
    simp [leadingDigits, decimalValue]
  · by_cases hr : decimalValue (leadingDigits v) > 2 ^ bitSize - 1
    · simp only [hv, hr, if_true, if_false]
    · by_cases hs : (leadingDigits v).length < v.length
      · simp only [hv, hr, hs, if_true, if_false]
      · exfalso
        obtain ⟨h1, h2⟩ := leadingDigits_full v hs
        rw [h1] at hr
        exact h ⟨hv, h2, by omega⟩

theorem failValue_lt (bitSize : Nat) (v : Str) : failValue bitSize v < 2 ^ bitSize := by
  have hpos : 0 < 2 ^ bitSize := Nat.pow_pos (by decide)
  unfold failValue
  split_ifs <;> omega

theorem mkSubflow_SPort_fail (pv6 : Str → IP) (m : StrMap) (v : Str)
    (hm : m (lit "sport") = some v) (h : ¬ parsesAs 16 v) :
    (mkSubflow pv6 m).SPort = failValue 16 v := by
  have hget : m.get (lit "sport") = v := by simp [StrMap.get, hm]
  simp only [mkSubflow, hget, ParseUint_fail 16 (by decide) v h]
  exact Nat.mod_eq_of_lt (failValue_lt 16 v)

theorem mkSubflow_DPort_fail (pv6 : Str → IP) (m : StrMap) (v : Str)
    (hm : m (lit "dport") = some v) (h : ¬ parsesAs 16 v) :
    (mkSubflow pv6 m).DPort = failValue 16 v := by
  have hget : m.get (lit "dport") = v := by simp [StrMap.get, hm]
  simp only [mkSubflow, hget, ParseUint_fail 16 (by decide) v h]
  exact Nat.mod_eq_of_lt (failValue_lt 16 v)

theorem mkSubflow_Bytes_fail (pv6 : Str → IP) (m : StrMap) (v : Str)
    (hm : m (lit "bytes") = some v) (h : ¬ parsesAs 64 v) :
    (mkSubflow pv6 m).Bytes = failValue 64 v := by
  have hget : m.get (lit "bytes") = v := by simp [StrMap.get, hm]
  simp only [mkSubflow, hget, ParseUint_fail 64 (by decide) v h]

theorem mkSubflow_Packets_fail (pv6 : Str → IP) (m : StrMap) (v : Str)
    (hm : m (lit "packets") = some v) (h : ¬ parsesAs 64 v) :
    (mkSubflow pv6 m).Packets = failValue 64 v := by
  have hget : m.get (lit "packets") = v := by simp [StrMap.get, hm]
  simp only [mkSubflow, hget, ParseUint_fail 64 (by decide) v h]

/-! ### Zero-valued tuples -/

theorem mkSubflow_zero (pv6 : Str → IP) (m : StrMap)
    (h : ∀ k ∈ tupleKeys, m k = none) : mkSubflow pv6 m = zeroSubflow := by
  have h1 : m.get (lit "src") = [] := by simp [StrMap.get, h (lit "src") (by decide)]
  have h2 : m.get (lit "dst") = [] := by simp [StrMap.get, h (lit "dst") (by decide)]
  have h3 : m.get (lit "sport") = [] := by simp [StrMap.get, h (lit "sport") (by decide)]
  have h4 : m.get (lit "dport") = [] := by simp [StrMap.get, h (lit "dport") (by decide)]
  have h5 : m.get (lit "bytes") = [] := by simp [StrMap.get, h (lit "bytes") (by decide)]
  have h6 : m.get (lit "packets") = [] := by simp [StrMap.get, h (lit "packets") (by decide)]
  simp only [mkSubflow, h1, h2, h3, h4, h5, h6]
  rfl

/-- For every line the parser gets through: when no tuple key occurs twice
the Reply tuple is the zero Subflow, and when the line has no `key=value`
token the Original tuple is the zero Subflow as well. -/
theorem zero_subflows_of_missing_fields (pv6 : Str → IP) (fields : List Str)
    (h : enoughTokens fields) :
    ∃ flow : Flow,
      lineFlow pv6 fields = Except.ok flow ∧
      ((∀ k ∈ tupleKeys, occurrences k (pairsOf fields) ≤ 1) → flow.Reply = zeroSubflow) ∧
      (pairsOf fields = [] → flow.Original = zeroSubflow ∧ flow.Reply = zeroSubflow) := by
  refine ⟨flowOf pv6 fields, lineFlow_eq pv6 fields h, ?_, ?_⟩
  · intro hk
    simp only [flowOf, flowOf_reply_map]
    exact mkSubflow_zero pv6 _ (fun k hmem => laterVal_of_no_repeat k _ (hk k hmem))
  · intro hp
    simp only [flowOf, flowOf_original_map, flowOf_reply_map, hp]
    exact ⟨mkSubflow_zero pv6 _ (fun _ _ => rfl), mkSubflow_zero pv6 _ (fun _ _ => rfl)⟩

/-! ### The classifier and the filters -/

theorem classifiers_exclusive (localIPs : List IPNet) (flow : Flow) :
    trueCount localIPs flow ≤ 1 := by
  unfold trueCount isSNAT isDNAT isLocal isRouted
  cases IP.Equal flow.Original.Source flow.Reply.Destination <;>
    cases IP.Equal flow.Original.Destination flow.Reply.Source <;>
    cases IP.Equal flow.Original.Source flow.Reply.Source <;>
    cases IP.Equal flow.Original.Destination flow.Reply.Destination <;>
    cases isLocalIP localIPs flow.Original.Source <;>
    cases isLocalIP localIPs flow.Original.Destination <;>
    cases isLocalIP localIPs flow.Reply.Source <;>
    cases isLocalIP localIPs flow.Reply.Destination <;> decide

theorem foldl_filterStep (filter : Flow → Bool) (flows : FlowSlice) :
    ∀ vars : FilterVars,
      (flows.foldl (filterStep filter) vars).filtered = vars.filtered ++ flows.filter filter ∧
      (flows.foldl (filterStep filter) vars).flows = vars.flows := by
  induction flows with
  | nil => intro vars; simp
  | cons flow rest ih =>
    intro vars
    obtain ⟨h1, h2⟩ := ih (filterStep filter vars flow)
    rw [List.foldl_cons, h1, h2]
    by_cases hp : filter flow = true
    · simp [filterStep, hp, List.filter_cons]
    · simp [filterStep, hp, List.filter_cons]

theorem Filter_eq_filter (flows : FlowSlice) (filter : Flow → Bool) :
    FlowSlice.Filter flows filter = flows.filter filter := by
  simp [FlowSlice.Filter, filterRun, foldl_filterStep]

theorem isLocalIP_iff (localIPs : List IPNet) (ip : IP) :
    isLocalIP localIPs ip = true ↔ ∃ n ∈ localIPs, IP.Equal n.IP ip = true := by
  induction localIPs with
  | nil => simp [isLocalIP]
  | cons n rest ih =>
    by_cases h : IP.Equal n.IP ip = true
    · simp [isLocalIP, h]
    · simp [isLocalIP, h, ih]

theorem IP_Equal_nil_right (ip : IP) : IP.Equal ip [] = decide (ip = []) := by
  cases ip with
  | nil => rfl
  | cons a t => simp [IP.Equal]

/-! ### Tokens without effect -/

theorem splitGo_length (sep : Char) (s : List Char) :
    ∀ cur : Str, (splitGo sep s cur).length = s.count sep + 1 := by
  induction s with
  | nil => intro cur; simp [splitGo]
  | cons c cs ih =>
    intro cur
    by_cases h : c = sep
    · simp [splitGo, h, ih]
    · simp [splitGo, h, ih, List.count_cons]

theorem kvOf_none_of_count (t : Str) (h : t.count '=' ≠ 1) : kvOf t = none := by
  unfold kvOf
  split
  · rename_i k v heq
    have hlen := splitGo_length '=' t []
    rw [show splitGo '=' t [] = Split t '=' from rfl, heq] at hlen
    simp at hlen
    exact absurd hlen h
  · rfl

theorem firstVal_insert (k k1 v : Str) (ps1 ps2 : List (Str × Str)) (h : k1 ≠ k) :
    firstVal k (ps1 ++ (k1, v) :: ps2) = firstVal k (ps1 ++ ps2) := by
  induction ps1 with
  | nil => simp [firstVal, h]
  | cons p ps ih =>
    obtain ⟨k2, v2⟩ := p
    simp [firstVal, ih]

theorem lastVal_insert (k k1 v : Str) (ps1 ps2 : List (Str × Str)) (h : k1 ≠ k) :
    lastVal k (ps1 ++ (k1, v) :: ps2) = lastVal k (ps1 ++ ps2) := by
  induction ps1 with
  | nil => cases hl : lastVal k ps2 <;> simp [lastVal, h, hl]
  | cons p ps ih =>
    obtain ⟨k2, v2⟩ := p
    simp [lastVal, ih]

theorem laterVal_insert (k k1 v : Str) (ps1 ps2 : List (Str × Str)) (h : k1 ≠ k) :
    laterVal k (ps1 ++ (k1, v) :: ps2) = laterVal k (ps1 ++ ps2) := by
  induction ps1 with
  | nil => simp [laterVal, h]
  | cons p ps ih =>
    obtain ⟨k2, v2⟩ := p
    simp [laterVal, ih, lastVal_insert k k1 v ps ps2 h]

theorem mkSubflow_congr (pv6 : Str → IP) (m1 m2 : StrMap)
    (h : ∀ k ∈ tupleKeys, m1 k = m2 k) : mkSubflow pv6 m1 = mkSubflow pv6 m2 := by
  have h1 : m1.get (lit "src") = m2.get (lit "src") := by
    simp [StrMap.get, h (lit "src") (by decide)]
  have h2 : m1.get (lit "dst") = m2.get (lit "dst") := by
    simp [StrMap.get, h (lit "dst") (by decide)]
  have h3 : m1.get (lit "sport") = m2.get (lit "sport") := by
    simp [StrMap.get, h (lit "sport") (by decide)]
  have h4 : m1.get (lit "dport") = m2.get (lit "dport") := by
    simp [StrMap.get, h (lit "dport") (by decide)]
  have h5 : m1.get (lit "bytes") = m2.get (lit "bytes") := by
    simp [StrMap.get, h (lit "bytes") (by decide)]
  have h6 : m1.get (lit "packets") = m2.get (lit "packets") := by
    simp [StrMap.get, h (lit "packets") (by decide)]
  simp only [mkSubflow, h1, h2, h3, h4, h5, h6]

theorem pairsOf_insert (a b c d t : Str) (rest post : List Str) :
    pairsOf (a :: b :: c :: d :: rest ++ t :: post) =
      (d :: rest).filterMap kvOf ++ ((kvOf t).toList ++ post.filterMap kvOf) ∧
    pairsOf (a :: b :: c :: d :: rest ++ post) =
      (d :: rest).filterMap kvOf ++ post.filterMap kvOf := by
  constructor
  · cases hd : kvOf d <;> cases h : kvOf t <;>
      simp [pairsOf, List.filterMap_append, List.filterMap_cons, h, hd]
  · cases hd : kvOf d <;>
      simp [pairsOf, List.filterMap_append, List.filterMap_cons, hd]

theorem flowOf_insert (pv6 : Str → IP) (pre post : List Str) (t : Str)
    (hpre : 4 ≤ pre.length)
    (hu : t ≠ lit "[UNREPLIED]") (ha : t ≠ lit "[ASSURED]")
    (ht : t.count '=' ≠ 1 ∨ ∃ k v, kvOf t = some (k, v) ∧ k ∉ tupleKeys) :
    flowOf pv6 (pre ++ t :: post) = flowOf pv6 (pre ++ post) := by
  match pre, hpre with
  | a :: b :: c :: d :: rest, _ =>
    obtain ⟨hp1, hp2⟩ := pairsOf_insert a b c d t rest post
    have hmaps : ∀ k ∈ tupleKeys,
        firstVal k (pairsOf (a :: b :: c :: d :: rest ++ t :: post)) =
          firstVal k (pairsOf (a :: b :: c :: d :: rest ++ post)) ∧
        laterVal k (pairsOf (a :: b :: c :: d :: rest ++ t :: post)) =
          laterVal k (pairsOf (a :: b :: c :: d :: rest ++ post)) := by
      intro k hk
      rw [hp1, hp2]
      rcases ht with h | ⟨k1, v, h, hn⟩
      · rw [kvOf_none_of_count t h]
        exact ⟨rfl, rfl⟩
      · have hne : k1 ≠ k := fun e => hn (e ▸ hk)
        rw [h]
        exact ⟨firstVal_insert k k1 v _ _ hne, laterVal_insert k k1 v _ _ hne⟩
    have horig := mkSubflow_congr pv6
      (fun k => firstVal k (pairsOf (a :: b :: c :: d :: rest ++ t :: post)))
      (fun k => firstVal k (pairsOf (a :: b :: c :: d :: rest ++ post)))
      (fun k hk => (hmaps k hk).1)
    have hreply := mkSubflow_congr pv6
      (fun k => laterVal k (pairsOf (a :: b :: c :: d :: rest ++ t :: post)))
      (fun k => laterVal k (pairsOf (a :: b :: c :: d :: rest ++ post)))
      (fun k hk => (hmaps k hk).2)
    have hu2 : ¬ lit "[UNREPLIED]" = t := fun e => hu e.symm
    have ha2 : ¬ lit "[ASSURED]" = t := fun e => ha e.symm
    have hfu : decide (lit "[UNREPLIED]" ∈ (a :: b :: c :: d :: rest ++ t :: post).drop 3) =
        decide (lit "[UNREPLIED]" ∈ (a :: b :: c :: d :: rest ++ post).drop 3) := by
      simp [hu2]
    have hfa : decide (lit "[ASSURED]" ∈ (a :: b :: c :: d :: rest ++ t :: post).drop 3) =
        decide (lit "[ASSURED]" ∈ (a :: b :: c :: d :: rest ++ post).drop 3) := by
      simp [ha2]
    simp only [flowOf, flowOf_original_map, flowOf_reply_map, foldl_unreplied, foldl_assured,
      horig, hreply, hfu, hfa]
    rfl

/-! ## The claims -/

/-- C1: parsing the worked example line followed by a newline yields exactly
one Flow, the one the specification describes; for every local-address
registry that Flow is SNAT and is neither DNAT, local nor routed. -/
theorem C1_worked_example (pv6 : Str → IP) (localIPs : List IPNet) :
    Flows pv6 (Except.ok (exampleLine ++ ['\n'])) = Except.ok ([exampleFlow], none) ∧
    isSNAT exampleFlow = true ∧ isDNAT exampleFlow = false ∧
    isLocal localIPs exampleFlow = false ∧ isRouted localIPs exampleFlow = false :=
  ⟨rfl, rfl, rfl, rfl, rfl⟩

/-- C2 (as the code has it): for every line the parser gets through and every
key, among the `key=value` tokens the token loop reads (those from index 3
on), the Original tuple is built from the value of the first token of each
key and the Reply tuple from the value of the last token of that key after
the first one; that is the second token whenever the key occurs at most
twice. The order of the keys relative to each other plays no role. -/
theorem C2_first_and_last_later_occurrence (pv6 : Str → IP) (fields : List Str)
    (h : enoughTokens fields) :
    ∃ flow : Flow,
      lineFlow pv6 fields = Except.ok flow ∧
      flow.Original = mkSubflow pv6 (fun k => firstVal k (pairsOf fields)) ∧
      flow.Reply = mkSubflow pv6 (fun k => laterVal k (pairsOf fields)) ∧
      ∀ k : Str, occurrences k (pairsOf fields) ≤ 2 →
        laterVal k (pairsOf fields) = secondVal k (pairsOf fields) := by
  refine ⟨flowOf pv6 fields, lineFlow_eq pv6 fields h, ?_, ?_, ?_⟩
  · simp only [flowOf, flowOf_original_map]
  · simp only [flowOf, flowOf_reply_map]
  · intro k hk
    exact laterVal_eq_secondVal k _ hk

/-- C2 at a line whose keys come in a mixed order. -/
theorem C2_witness :
    enoughTokens (Fields (lit "udp 17 30 sport=53 src=10.0.0.1 src=10.0.0.2 sport=99")) ∧
    ∃ flow : Flow,
      lineFlow (fun _ => [])
        (Fields (lit "udp 17 30 sport=53 src=10.0.0.1 src=10.0.0.2 sport=99")) = Except.ok flow ∧
      flow.Original.Source = IPv4 10 0 0 1 ∧ flow.Original.SPort = 53 ∧
      flow.Reply.Source = IPv4 10 0 0 2 ∧ flow.Reply.SPort = 99 := by
  refine ⟨by decide, ?_⟩
  obtain ⟨flow, hflow, ho, hr, _⟩ :=
    C2_first_and_last_later_occurrence (fun _ => [])
      (Fields (lit "udp 17 30 sport=53 src=10.0.0.1 src=10.0.0.2 sport=99")) (by decide)
  refine ⟨flow, hflow, ?_, ?_, ?_, ?_⟩
  · rw [ho]; rfl
  · rw [ho]; rfl
  · rw [hr]; rfl
  · rw [hr]; rfl

/-- C2 as stated fails: on a line where `src` and `sport` each occur three
times the second `src` token carries 10.0.0.2 and the second `sport` token
carries 2, but the Reply tuple has the values of the third tokens, 10.0.0.3
and 3. -/
theorem C2_counterexample :
    ∃ flow : Flow,
      lineFlow (fun _ => [])
        (Fields (lit "udp 17 30 src=10.0.0.1 sport=1 src=10.0.0.2 sport=2 src=10.0.0.3 sport=3")) =
        Except.ok flow ∧
      secondVal (lit "src") (pairsOf
        (Fields (lit "udp 17 30 src=10.0.0.1 sport=1 src=10.0.0.2 sport=2 src=10.0.0.3 sport=3"))) =
        some (lit "10.0.0.2") ∧
      secondVal (lit "sport") (pairsOf
        (Fields (lit "udp 17 30 src=10.0.0.1 sport=1 src=10.0.0.2 sport=2 src=10.0.0.3 sport=3"))) =
        some (lit "2") ∧
      flow.Reply.Source = IPv4 10 0 0 3 ∧ flow.Reply.Source ≠ IPv4 10 0 0 2 ∧
      flow.Reply.SPort = 3 ∧ flow.Reply.SPort ≠ 2 :=
  ⟨_, rfl, rfl, rfl, rfl, by decide, rfl, by decide⟩

/-- C3: on the readable input `udp 17` followed by a newline (a line of two
tokens) `Flows` does not return: the index expression `fields[2]` panics. The
same happens for a one-token line, and `fields[3]` panics for a `tcp` line of
three tokens. -/
theorem C3_short_line_panics (pv6 : Str → IP) :
    Flows pv6 (Except.ok (lit "udp 17\n")) = Except.error (Panic.indexOutOfRange 2 2) ∧
    Flows pv6 (Except.ok (lit "udp\n")) = Except.error (Panic.indexOutOfRange 2 1) ∧
    Flows pv6 (Except.ok (lit "tcp 6 431999\n")) = Except.error (Panic.indexOutOfRange 3 3) :=
  ⟨rfl, rfl, rfl⟩

/-- C4: for a readable text in which every line before the first line without
a token has at least three tokens (four when token 0 is `tcp`), `Flows`
returns a nil error and, in file order, exactly one Flow per such line, each
the Flow the loop body builds for that line; lines at or after the first
token-free line contribute nothing, and when the first line has no token the
result is empty. -/
theorem C4_one_flow_per_line_until_blank (pv6 : Str → IP) (data : Str)
    (h : ∀ line ∈ parsedLines data, enoughTokens (Fields line)) :
    ∃ flows : FlowSlice,
      Flows pv6 (Except.ok data) = Except.ok (flows, none) ∧
      List.Forall₂ (fun line flow => lineFlow pv6 (Fields line) = Except.ok flow)
        (parsedLines data) flows ∧
      (∀ first rest, Split data '\n' = first :: rest → Fields first = [] → flows = []) := by
  refine ⟨(parsedLines data).map (fun line => flowOf pv6 (Fields line)), ?_, ?_, ?_⟩
  · have hloop := flowsLoop_spec pv6 (Split data '\n') [] h
    simp only [Flows, hloop, parsedLines, List.nil_append]
  · rw [List.forall₂_map_right_iff]
    apply List.forall₂_same.mpr
    intro line hl
    exact lineFlow_eq pv6 (Fields line) (h line hl)
  · intro first rest hsplit hfirst
    simp [parsedLines, hsplit, List.takeWhile, hfirst]

/-- C4 at a text with two records, a blank line and a malformed line after
it: the hypothesis holds and the theorem applies. -/
theorem C4_witness :
    (∀ line ∈ parsedLines (lit "udp 17 30 src=1.1.1.1\ntcp 6 9 CLOSE\n\ntcp 6\n"),
      enoughTokens (Fields line)) ∧
    ∃ flows : FlowSlice,
      Flows (fun _ => []) (Except.ok (lit "udp 17 30 src=1.1.1.1\ntcp 6 9 CLOSE\n\ntcp 6\n")) =
        Except.ok (flows, none) ∧
      List.Forall₂ (fun line flow => lineFlow (fun _ => []) (Fields line) = Except.ok flow)
        (parsedLines (lit "udp 17 30 src=1.1.1.1\ntcp 6 9 CLOSE\n\ntcp 6\n")) flows ∧
      (∀ first rest, Split (lit "udp 17 30 src=1.1.1.1\ntcp 6 9 CLOSE\n\ntcp 6\n") '\n' =
        first :: rest → Fields first = [] → flows = []) :=
  ⟨by decide, C4_one_flow_per_line_until_blank _ _ (by decide)⟩

/-- C5 (as the code has it): for every line the parser gets through and
every value string `v` given to `sport`, `dport`, `bytes` or `packets` (to
Original by the first token of the key, to Reply by the last later one) that
is not an unsigned decimal integer of the field's width, the Flow field is
`failValue`: 0, except that it is the maximum of the width (65535 for a
port, 2^64 - 1 for a counter) when the leading digits of `v` already exceed
that maximum. -/
theorem C5_unparsable_number_fields (pv6 : Str → IP) (fields : List Str)
    (h : enoughTokens fields) :
    ∃ flow : Flow,
      lineFlow pv6 fields = Except.ok flow ∧
      (∀ v, firstVal (lit "sport") (pairsOf fields) = some v → ¬ parsesAs 16 v →
        flow.Original.SPort = failValue 16 v) ∧
      (∀ v, firstVal (lit "dport") (pairsOf fields) = some v → ¬ parsesAs 16 v →
        flow.Original.DPort = failValue 16 v) ∧
      (∀ v, firstVal (lit "bytes") (pairsOf fields) = some v → ¬ parsesAs 64 v →
        flow.Original.Bytes = failValue 64 v) ∧
      (∀ v, firstVal (lit "packets") (pairsOf fields) = some v → ¬ parsesAs 64 v →
        flow.Original.Packets = failValue 64 v) ∧
      (∀ v, laterVal (lit "sport") (pairsOf fields) = some v → ¬ parsesAs 16 v →
        flow.Reply.SPort = failValue 16 v) ∧
      (∀ v, laterVal (lit "dport") (pairsOf fields) = some v → ¬ parsesAs 16 v →
        flow.Reply.DPort = failValue 16 v) ∧
      (∀ v, laterVal (lit "bytes") (pairsOf fields) = some v → ¬ parsesAs 64 v →
        flow.Reply.Bytes = failValue 64 v) ∧
      (∀ v, laterVal (lit "packets") (pairsOf fields) = some v → ¬ parsesAs 64 v →
        flow.Reply.Packets = failValue 64 v) := by
  refine ⟨flowOf pv6 fields, lineFlow_eq pv6 fields h, ?_, ?_, ?_, ?_, ?_, ?_, ?_, ?_⟩
  · intro v hv hp
    simp only [flowOf, flowOf_original_map]
    exact mkSubflow_SPort_fail pv6 _ v hv hp
  · intro v hv hp
    simp only [flowOf, flowOf_original_map]
    exact mkSubflow_DPort_fail pv6 _ v hv hp
  · intro v hv hp
    simp only [flowOf, flowOf_original_map]
    exact mkSubflow_Bytes_fail pv6 _ v hv hp
  · intro v hv hp
    simp only [flowOf, flowOf_original_map]
    exact mkSubflow_Packets_fail pv6 _ v hv hp
  · intro v hv hp
    simp only [flowOf, flowOf_reply_map]
    exact mkSubflow_SPort_fail pv6 _ v hv hp
  · intro v hv hp
    simp only [flowOf, flowOf_reply_map]
    exact mkSubflow_DPort_fail pv6 _ v hv hp
  · intro v hv hp
    simp only [flowOf, flowOf_reply_map]
    exact mkSubflow_Bytes_fail pv6 _ v hv hp
  · intro v hv hp
    simp only [flowOf, flowOf_reply_map]
    exact mkSubflow_Packets_fail pv6 _ v hv hp

/-- C5 at a line with eight values that do not parse: the four that are out
of range give the maximum of the width, the other four give 0. -/
theorem C5_witness :
    enoughTokens (Fields badNumbersLine) ∧
    ∃ flow : Flow,
      lineFlow (fun _ => []) (Fields badNumbersLine) = Except.ok flow ∧
      flow.Original.SPort = 65535 ∧ flow.Original.DPort = 0 ∧
      flow.Original.Bytes = 18446744073709551615 ∧ flow.Original.Packets = 0 ∧
      flow.Reply.SPort = 65535 ∧ flow.Reply.DPort = 0 ∧
      flow.Reply.Bytes = 0 ∧ flow.Reply.Packets = 18446744073709551615 := by
  refine ⟨by decide, ?_⟩
  obtain ⟨flow, hflow, h1, h2, h3, h4, h5, h6, h7, h8⟩ :=
    C5_unparsable_number_fields (fun _ => []) (Fields badNumbersLine) (by decide)
  refine ⟨flow, hflow, ?_, ?_, ?_, ?_, ?_, ?_, ?_, ?_⟩
  · exact (h1 (lit "70000") rfl (by decide)).trans (by decide)
  · exact (h2 (lit "-1") rfl (by decide)).trans (by decide)
  · exact (h3 (lit "100000000000000000000") rfl (by decide)).trans (by decide)
  · exact (h4 (lit "x") rfl (by decide)).trans (by decide)
  · exact (h5 (lit "65536") rfl (by decide)).trans (by decide)
  · exact (h6 (lit "") rfl (by decide)).trans (by decide)
  · exact (h7 (lit "1e3") rfl (by decide)).trans (by decide)
  · exact (h8 (lit "18446744073709551616") rfl (by decide)).trans (by decide)

/-- C5 as stated fails: `sport=70000` does not fit 16 bits and a `bytes`
value of 21 digits does not fit 64 bits, yet the fields are 65535 and
2^64 - 1, not 0. -/
theorem C5_counterexample :
    ∃ flow : Flow,
      lineFlow (fun _ => [])
        (Fields (lit "udp 17 30 sport=70000 bytes=100000000000000000000")) = Except.ok flow ∧
      firstVal (lit "sport")
        (pairsOf (Fields (lit "udp 17 30 sport=70000 bytes=100000000000000000000"))) =
        some (lit "70000") ∧
      ¬ parsesAs 16 (lit "70000") ∧
      (ParseUint (lit "70000") 16).2 = some NumError.ErrRange ∧
      flow.Original.SPort = 65535 ∧ flow.Original.SPort ≠ 0 ∧
      firstVal (lit "bytes")
        (pairsOf (Fields (lit "udp 17 30 sport=70000 bytes=100000000000000000000"))) =
        some (lit "100000000000000000000") ∧
      ¬ parsesAs 64 (lit "100000000000000000000") ∧
      flow.Original.Bytes = 18446744073709551615 ∧ flow.Original.Bytes ≠ 0 :=
  ⟨_, rfl, rfl, by decide, rfl, rfl, by decide, rfl, by decide, rfl, by decide⟩

/-- C6: the line `udp 17` has no `key=value` token, so no tuple key occurs
twice on it, yet the loop body produces no Flow for it: `fields[2]` panics,
and with it the whole call of `Flows`. -/
theorem C6_no_flow_for_short_line (pv6 : Str → IP) :
    pairsOf (Fields (lit "udp 17")) = [] ∧
    (∀ k ∈ tupleKeys, occurrences k (pairsOf (Fields (lit "udp 17"))) ≤ 1) ∧
    lineFlow pv6 (Fields (lit "udp 17")) = Except.error (Panic.indexOutOfRange 2 2) ∧
    Flows pv6 (Except.ok (lit "udp 17")) = Except.error (Panic.indexOutOfRange 2 2) :=
  ⟨rfl, by decide, rfl, rfl⟩

/-- C7 (as the code has it): for every line the parser gets through (at least
three tokens, four when token 0 is `tcp`) the Flow has token 0 as Protocol and
its State is
token 3 when the protocol is `tcp`; otherwise it is "UNREPLIED" when the
`[UNREPLIED]` flag token is among the tokens read as flags (those from index 3
on), whether or not `[ASSURED]` is there too, else "ASSURED" when the
`[ASSURED]` flag token is, else the empty string. -/
theorem C7_state_rule (pv6 : Str → IP) (line : Str) (h : enoughTokens (Fields line)) :
    ∃ flow : Flow,
      lineFlow pv6 (Fields line) = Except.ok flow ∧
      flow.Protocol = (Fields line).getD 0 [] ∧
      flow.State =
        if flow.Protocol = (lit "tcp") then (Fields line).getD 3 []
        else if (lit "[UNREPLIED]") ∈ (Fields line).drop 3 then (lit "UNREPLIED")
        else if (lit "[ASSURED]") ∈ (Fields line).drop 3 then (lit "ASSURED")
        else [] := by
  refine ⟨flowOf pv6 (Fields line), lineFlow_eq pv6 _ h, rfl, ?_⟩
  have hne := Fields_ne_nil line
  obtain ⟨h3, h4⟩ := h
  generalize Fields line = fields at h3 h4 hne
  simp only [flowOf, foldl_unreplied, foldl_assured, Scan.init, Bool.false_or]
  by_cases hp : fields.getD 0 [] = (lit "tcp")
  · have hlen : 4 ≤ fields.length := by
      apply h4
      match fields, h3 with
      | a :: rest, _ => simp at hp; simp [hp]
    have h3ne : fields.getD 3 [] ≠ [] := by
      match fields, hlen, hne with
      | a :: b :: c :: d :: rest, _, hne => simpa using hne d (by simp)
    simp only [hp, if_true, finalState, h3ne, if_false]
  · simp only [hp, if_false, finalState, if_true]
    by_cases hu : (lit "[UNREPLIED]") ∈ fields.drop 3
    · simp [hu]
    · by_cases ha : (lit "[ASSURED]") ∈ fields.drop 3
      · simp [hu, ha]
      · simp [hu, ha]

/-- C7 at a `udp` line carrying both flags. -/
theorem C7_witness :
    enoughTokens (Fields (lit "udp 17 30 src=1.1.1.1 [ASSURED] [UNREPLIED]")) ∧
    ∃ flow : Flow,
      lineFlow (fun _ => []) (Fields (lit "udp 17 30 src=1.1.1.1 [ASSURED] [UNREPLIED]")) =
        Except.ok flow ∧
      flow.Protocol = (Fields (lit "udp 17 30 src=1.1.1.1 [ASSURED] [UNREPLIED]")).getD 0 [] ∧
      flow.State =
        if flow.Protocol = (lit "tcp") then
          (Fields (lit "udp 17 30 src=1.1.1.1 [ASSURED] [UNREPLIED]")).getD 3 []
        else if (lit "[UNREPLIED]") ∈
            (Fields (lit "udp 17 30 src=1.1.1.1 [ASSURED] [UNREPLIED]")).drop 3 then
          (lit "UNREPLIED")
        else if (lit "[ASSURED]") ∈
            (Fields (lit "udp 17 30 src=1.1.1.1 [ASSURED] [UNREPLIED]")).drop 3 then
          (lit "ASSURED")
        else [] :=
  ⟨by decide, C7_state_rule _ _ (by decide)⟩

/-- C7 as stated fails: the line `udp 17 [UNREPLIED] [ASSURED]` is parsed and
carries the token `[UNREPLIED]`, but at index 2, where it is read as the TTL
and not as a flag; the Unreplied flag stays false and the State is "ASSURED",
not "UNREPLIED". -/
theorem C7_counterexample :
    enoughTokens (Fields (lit "udp 17 [UNREPLIED] [ASSURED]")) ∧
    lit "[UNREPLIED]" ∈ Fields (lit "udp 17 [UNREPLIED] [ASSURED]") ∧
    ∃ flow : Flow,
      lineFlow (fun _ => []) (Fields (lit "udp 17 [UNREPLIED] [ASSURED]")) = Except.ok flow ∧
      flow.Protocol = lit "udp" ∧ flow.Protocol ≠ lit "tcp" ∧
      flow.Unreplied = false ∧ flow.Assured = true ∧
      flow.State = lit "ASSURED" ∧ flow.State ≠ lit "UNREPLIED" :=
  ⟨by decide, by decide, _, rfl, rfl, by decide, rfl, rfl, rfl, by decide⟩

/-- C8: `isSNAT` holds exactly when Original.Destination equals Reply.Source
and Original.Source does not equal Reply.Destination, under `net.IP.Equal`
(for every Flow, the nil address included). -/
theorem C8_isSNAT_iff (flow : Flow) :
    isSNAT flow = true ↔
      IP.Equal flow.Original.Destination flow.Reply.Source = true ∧
      IP.Equal flow.Original.Source flow.Reply.Destination = false := by
  unfold isSNAT
  cases IP.Equal flow.Original.Source flow.Reply.Destination <;>
    cases IP.Equal flow.Original.Destination flow.Reply.Source <;> simp

/-- C9: `isDNAT` holds exactly when (a) O.Source equals R.Destination and
O.Destination differs from R.Source, or (b) O.Source differs from R.Source and
from R.Destination, O.Destination differs from R.Source and O.Destination
equals R.Destination. -/
theorem C9_isDNAT_iff (flow : Flow) :
    isDNAT flow = true ↔
      (IP.Equal flow.Original.Source flow.Reply.Destination = true ∧
        IP.Equal flow.Original.Destination flow.Reply.Source = false) ∨
      (IP.Equal flow.Original.Source flow.Reply.Source = false ∧
        IP.Equal flow.Original.Source flow.Reply.Destination = false ∧
        IP.Equal flow.Original.Destination flow.Reply.Source = false ∧
        IP.Equal flow.Original.Destination flow.Reply.Destination = true) := by
  unfold isDNAT
  cases IP.Equal flow.Original.Source flow.Reply.Destination <;>
    cases IP.Equal flow.Original.Destination flow.Reply.Source <;>
    cases IP.Equal flow.Original.Source flow.Reply.Source <;>
    cases IP.Equal flow.Original.Destination flow.Reply.Destination <;> simp

/-- C10: `isLocal` holds exactly when O.Source equals R.Destination,
O.Destination equals R.Source and at least one of the four addresses is in
the registry (`isLocalIP`). -/
theorem C10_isLocal_iff (localIPs : List IPNet) (flow : Flow) :
    isLocal localIPs flow = true ↔
      IP.Equal flow.Original.Source flow.Reply.Destination = true ∧
      IP.Equal flow.Original.Destination flow.Reply.Source = true ∧
      (isLocalIP localIPs flow.Original.Source = true ∨
        isLocalIP localIPs flow.Original.Destination = true ∨
        isLocalIP localIPs flow.Reply.Source = true ∨
        isLocalIP localIPs flow.Reply.Destination = true) := by
  unfold isLocal
  cases IP.Equal flow.Original.Source flow.Reply.Destination <;>
    cases IP.Equal flow.Original.Destination flow.Reply.Source <;>
    cases isLocalIP localIPs flow.Original.Source <;>
    cases isLocalIP localIPs flow.Original.Destination <;>
    cases isLocalIP localIPs flow.Reply.Source <;>
    cases isLocalIP localIPs flow.Reply.Destination <;> simp

/-- C11: for every registry and every Flow whose tuples are mirrors
(O.Source equals R.Destination and O.Destination equals R.Source) exactly one
of `isLocal` and `isRouted` holds, `isLocal` when at least one of the four
addresses is local and `isRouted` when none is; for a Flow that is not a
mirror both are false. -/
theorem C11_local_or_routed (localIPs : List IPNet) (flow : Flow) :
    (IP.Equal flow.Original.Source flow.Reply.Destination = true ∧
        IP.Equal flow.Original.Destination flow.Reply.Source = true →
      (isLocal localIPs flow = true ↔
        (isLocalIP localIPs flow.Original.Source = true ∨
          isLocalIP localIPs flow.Original.Destination = true ∨
          isLocalIP localIPs flow.Reply.Source = true ∨
          isLocalIP localIPs flow.Reply.Destination = true)) ∧
      (isRouted localIPs flow = true ↔
        (isLocalIP localIPs flow.Original.Source = false ∧
          isLocalIP localIPs flow.Original.Destination = false ∧
          isLocalIP localIPs flow.Reply.Source = false ∧
          isLocalIP localIPs flow.Reply.Destination = false)) ∧
      isRouted localIPs flow = !isLocal localIPs flow) ∧
    (¬ (IP.Equal flow.Original.Source flow.Reply.Destination = true ∧
        IP.Equal flow.Original.Destination flow.Reply.Source = true) →
      isLocal localIPs flow = false ∧ isRouted localIPs flow = false) := by
  unfold isLocal isRouted
  cases IP.Equal flow.Original.Source flow.Reply.Destination <;>
    cases IP.Equal flow.Original.Destination flow.Reply.Source <;>
    cases isLocalIP localIPs flow.Original.Source <;>
    cases isLocalIP localIPs flow.Original.Destination <;>
    cases isLocalIP localIPs flow.Reply.Source <;>
    cases isLocalIP localIPs flow.Reply.Destination <;> simp

/-- C11 at two mirror flows under the registry 192.168.1.1/24: one with the
registered address, which is local and not routed, and one without, which is
routed and not local. -/
theorem C11_witness :
    (isLocal lanRegistry (flowWith (IPv4 192 168 1 1) (IPv4 8 8 8 8)
        (IPv4 8 8 8 8) (IPv4 192 168 1 1)) = true ∧
      isRouted lanRegistry (flowWith (IPv4 192 168 1 1) (IPv4 8 8 8 8)
        (IPv4 8 8 8 8) (IPv4 192 168 1 1)) = false) ∧
    (isRouted lanRegistry (flowWith (IPv4 10 0 0 5) (IPv4 8 8 8 8)
        (IPv4 8 8 8 8) (IPv4 10 0 0 5)) = true ∧
      isLocal lanRegistry (flowWith (IPv4 10 0 0 5) (IPv4 8 8 8 8)
        (IPv4 8 8 8 8) (IPv4 10 0 0 5)) = false) := by
  have h1 := (C11_local_or_routed lanRegistry (flowWith (IPv4 192 168 1 1) (IPv4 8 8 8 8)
    (IPv4 8 8 8 8) (IPv4 192 168 1 1))).1 (by decide)
  have h2 := (C11_local_or_routed lanRegistry (flowWith (IPv4 10 0 0 5) (IPv4 8 8 8 8)
    (IPv4 8 8 8 8) (IPv4 10 0 0 5))).1 (by decide)
  refine ⟨⟨h1.1.mpr (by decide), ?_⟩, ⟨h2.2.1.mpr (by decide), ?_⟩⟩
  · rw [h1.2.2, h1.1.mpr (by decide)]; rfl
  · have hr := h2.2.1.mpr (by decide)
    have hx := h2.2.2
    rw [hr] at hx
    cases hl : isLocal lanRegistry (flowWith (IPv4 10 0 0 5) (IPv4 8 8 8 8)
      (IPv4 8 8 8 8) (IPv4 10 0 0 5))
    · rfl
    · rw [hl] at hx; simp at hx

/-- C12 (as the code has it): the four classifier predicates are mutually
exclusive, for every registry and every Flow at most one of `isSNAT`,
`isDNAT`, `isLocal`, `isRouted` holds; there is a Flow of which none holds and
a Flow of which exactly one holds. -/
theorem C12_at_most_one_classifier :
    (∀ (localIPs : List IPNet) (flow : Flow), trueCount localIPs flow ≤ 1) ∧
    (∃ (localIPs : List IPNet) (flow : Flow), trueCount localIPs flow = 0) ∧
    (∃ (localIPs : List IPNet) (flow : Flow), trueCount localIPs flow = 1) :=
  ⟨classifiers_exclusive,
    ⟨lanRegistry, flowWith (IPv4 1 1 1 1) (IPv4 2 2 2 2) (IPv4 3 3 3 3) (IPv4 4 4 4 4),
      by decide⟩,
    ⟨lanRegistry, exampleFlow, by decide⟩⟩

/-- C12 as stated fails: there is no registry and no Flow of which more than
one of the four classifier predicates holds, branch (b) of `isDNAT` included. -/
theorem C12_counterexample :
    ¬ ∃ (localIPs : List IPNet) (flow : Flow), 2 ≤ trueCount localIPs flow := by
  rintro ⟨localIPs, flow, h⟩
  have := classifiers_exclusive localIPs flow
  omega

/-- C13: for every slice `flows` and every predicate, `Filter` returns
exactly the elements of `flows` that satisfy the predicate, in their order in
`flows` (a sublist of `flows`), and the slice `flows` is the same after the
loop as before. -/
theorem C13_Filter_is_filter (flows : FlowSlice) (p : Flow → Bool) :
    FlowSlice.Filter flows p = flows.filter p ∧
    List.Sublist (FlowSlice.Filter flows p) flows ∧
    (∀ flow, flow ∈ FlowSlice.Filter flows p ↔ flow ∈ flows ∧ p flow = true) ∧
    (filterRun flows p).flows = flows := by
  refine ⟨Filter_eq_filter flows p, ?_, ?_, ?_⟩
  · rw [Filter_eq_filter]; exact List.filter_sublist flows
  · intro flow; rw [Filter_eq_filter]; exact List.mem_filter
  · simp [filterRun, foldl_filterStep]

/-- C14: for every registry, every slice and every mask that is the union of
the constants picked by four flags, `FilterByType` keeps exactly the flows
that satisfy at least one of the picked classifier predicates, in their
order (a sublist of the input); with the mask `SNATFilter | DNATFilter` it is
`Filter` with the predicate `isSNAT || isDNAT`. -/
theorem C14_FilterByType_union (localIPs : List IPNet) (flows : FlowSlice)
    (snat dnat routed local_ : Bool) :
    FlowSlice.FilterByType localIPs flows (maskOf snat dnat routed local_) =
      flows.filter (fun flow =>
        (snat && isSNAT flow) || (dnat && isDNAT flow) ||
        (routed && isRouted localIPs flow) || (local_ && isLocal localIPs flow)) ∧
    List.Sublist (FlowSlice.FilterByType localIPs flows (maskOf snat dnat routed local_)) flows ∧
    FlowSlice.FilterByType localIPs flows (SNATFilter ||| DNATFilter) =
      FlowSlice.Filter flows (fun flow => isSNAT flow || isDNAT flow) := by
  have key : FlowSlice.FilterByType localIPs flows (maskOf snat dnat routed local_) =
      flows.filter (fun flow =>
        (snat && isSNAT flow) || (dnat && isDNAT flow) ||
        (routed && isRouted localIPs flow) || (local_ && isLocal localIPs flow)) := by
    unfold FlowSlice.FilterByType
    rw [Filter_eq_filter]
    apply List.filter_congr
    intro flow _
    cases snat <;> cases dnat <;> cases routed <;> cases local_ <;>
      cases isSNAT flow <;> cases isDNAT flow <;>
      cases isRouted localIPs flow <;> cases isLocal localIPs flow <;> decide
  refine ⟨key, ?_, ?_⟩
  · rw [key]; exact List.filter_sublist flows
  · unfold FlowSlice.FilterByType
    rw [Filter_eq_filter, Filter_eq_filter]
    apply List.filter_congr
    intro flow _
    cases isSNAT flow <;> cases isDNAT flow <;>
      cases isRouted localIPs flow <;> cases isLocal localIPs flow <;> decide

/-- C16: for every registry and every address, `isLocalIP` holds exactly when
the address equals (`net.IP.Equal`) the address part of some entry; two
registries with the same address parts give the same answer whatever their
masks; and 192.168.1.7, which lies in the registered subnet 192.168.1.1/24
but is not the registered address, is not local. -/
theorem C16_isLocalIP_by_address (localIPs : List IPNet) (ip : IP) :
    (isLocalIP localIPs ip = true ↔ ∃ n ∈ localIPs, IP.Equal n.IP ip = true) ∧
    (∀ others : List IPNet, others.map (fun n => n.IP) = localIPs.map (fun n => n.IP) →
      isLocalIP others ip = isLocalIP localIPs ip) ∧
    isLocalIP lanRegistry (IPv4 192 168 1 7) = false ∧
    isLocalIP lanRegistry (IPv4 192 168 1 1) = true := by
  refine ⟨isLocalIP_iff localIPs ip, ?_, by decide, by decide⟩
  intro others hmap
  have hiff : isLocalIP others ip = true ↔ isLocalIP localIPs ip = true := by
    rw [isLocalIP_iff, isLocalIP_iff]
    constructor
    · rintro ⟨n, hn, he⟩
      have hmem : n.IP ∈ localIPs.map (fun n => n.IP) := by
        rw [← hmap]; exact List.mem_map_of_mem _ hn
      obtain ⟨m, hm, hmn⟩ := List.mem_map.mp hmem
      exact ⟨m, hm, by rw [hmn]; exact he⟩
    · rintro ⟨n, hn, he⟩
      have hmem : n.IP ∈ others.map (fun n => n.IP) := by
        rw [hmap]; exact List.mem_map_of_mem _ hn
      obtain ⟨m, hm, hmn⟩ := List.mem_map.mp hmem
      exact ⟨m, hm, by rw [hmn]; exact he⟩
  cases h1 : isLocalIP others ip <;> cases h2 : isLocalIP localIPs ip <;> simp_all

/-- C17: for every slice and every string, `FilterByProtocol` returns exactly
the flows whose Protocol equals the string, in their order, and
`FilterByState` exactly the flows whose State equals the string, in their
order; equality is exact, so `TCP` and `tcp` followed by a blank do not select
a `tcp` flow. -/
theorem C17_protocol_and_state_filters (flows : FlowSlice) (s : Str) :
    FlowSlice.FilterByProtocol flows s = flows.filter (fun flow => decide (flow.Protocol = s)) ∧
    FlowSlice.FilterByState flows s = flows.filter (fun flow => decide (flow.State = s)) ∧
    FlowSlice.FilterByProtocol [exampleFlow] (lit "tcp") = [exampleFlow] ∧
    FlowSlice.FilterByProtocol [exampleFlow] (lit "TCP") = [] ∧
    FlowSlice.FilterByProtocol [exampleFlow] (lit "tcp ") = [] ∧
    FlowSlice.FilterByState [exampleFlow] (lit "ESTABLISHED") = [exampleFlow] ∧
    FlowSlice.FilterByState [exampleFlow] (lit "established") = [] :=
  ⟨Filter_eq_filter _ _, Filter_eq_filter _ _, by decide, by decide, by decide, by decide,
    by decide⟩

/-- C20: for every Flow whose four addresses are all nil and every registry
without a nil address, `isRouted` holds and `isSNAT`, `isDNAT` and `isLocal`
do not, and `FilterByType` with `RoutedFilter` keeps every occurrence of the
Flow. -/
theorem C20_all_nil_addresses_routed (localIPs : List IPNet) (flow : Flow)
    (hos : flow.Original.Source = []) (hod : flow.Original.Destination = [])
    (hrs : flow.Reply.Source = []) (hrd : flow.Reply.Destination = [])
    (hreg : ∀ n ∈ localIPs, n.IP ≠ []) :
    isRouted localIPs flow = true ∧ isSNAT flow = false ∧ isDNAT flow = false ∧
    isLocal localIPs flow = false ∧
    (∀ flows : FlowSlice, flow ∈ flows →
      flow ∈ FlowSlice.FilterByType localIPs flows RoutedFilter) ∧
    FlowSlice.FilterByType localIPs [flow] RoutedFilter = [flow] := by
  have hnil : isLocalIP localIPs [] = false := by
    cases h : isLocalIP localIPs []
    · rfl
    · obtain ⟨n, hn, he⟩ := (isLocalIP_iff localIPs []).mp h
      rw [IP_Equal_nil_right] at he
      exact absurd (of_decide_eq_true he) (hreg n hn)
  have heq : IP.Equal ([] : IP) [] = true := rfl
  have hr : isRouted localIPs flow = true := by
    simp [isRouted, hos, hod, hrs, hrd, heq, hnil]
  have hkeep : ∀ flows : FlowSlice, flow ∈ flows →
      flow ∈ FlowSlice.FilterByType localIPs flows RoutedFilter := by
    intro flows hmem
    unfold FlowSlice.FilterByType
    rw [Filter_eq_filter]
    apply List.mem_filter.mpr
    refine ⟨hmem, ?_⟩
    have h4 : decide ((RoutedFilter &&& RoutedFilter) > 0) = true := by decide
    simp only [h4, hr, Bool.and_self, Bool.or_true]
  refine ⟨hr, ?_, ?_, ?_, hkeep, ?_⟩
  · simp [isSNAT, hos, hrd, heq]
  · simp [isDNAT, hos, hod, hrs, hrd, heq]
  · simp [isLocal, hos, hod, hrs, hrd, heq, hnil]
  · have hin := hkeep [flow] (List.mem_singleton.mpr rfl)
    have hsub : List.Sublist (FlowSlice.FilterByType localIPs [flow] RoutedFilter) [flow] := by
      unfold FlowSlice.FilterByType
      rw [Filter_eq_filter]; exact List.filter_sublist _
    cases hres : FlowSlice.FilterByType localIPs [flow] RoutedFilter with
    | nil => rw [hres] at hin; simp at hin
    | cons a rest =>
      rw [hres] at hsub
      have hlen := hsub.length_le
      simp at hlen
      subst hlen
      rw [hres] at hin
      simp at hin
      rw [hin]

/-- C20 at the Flow parsed from `udp 17 30 src=foo dst=bar src=x dst=y`, whose
four addresses do not parse, under the registry 192.168.1.1/24. -/
theorem C20_witness :
    lineFlow (fun _ => []) (Fields (lit "udp 17 30 src=foo dst=bar src=x dst=y")) =
      Except.ok (flowOf (fun _ => []) (Fields (lit "udp 17 30 src=foo dst=bar src=x dst=y"))) ∧
    (∀ n ∈ lanRegistry, n.IP ≠ []) ∧
    isRouted lanRegistry
      (flowOf (fun _ => []) (Fields (lit "udp 17 30 src=foo dst=bar src=x dst=y"))) = true ∧
    isSNAT (flowOf (fun _ => []) (Fields (lit "udp 17 30 src=foo dst=bar src=x dst=y"))) = false ∧
    isDNAT (flowOf (fun _ => []) (Fields (lit "udp 17 30 src=foo dst=bar src=x dst=y"))) = false ∧
    isLocal lanRegistry
      (flowOf (fun _ => []) (Fields (lit "udp 17 30 src=foo dst=bar src=x dst=y"))) = false := by
  have h := C20_all_nil_addresses_routed lanRegistry
    (flowOf (fun _ => []) (Fields (lit "udp 17 30 src=foo dst=bar src=x dst=y")))
    rfl rfl rfl rfl (by decide)
  exact ⟨rfl, by decide, h.1, h.2.1, h.2.2.1, h.2.2.2.1⟩

/-- C15: `Flows` returns a non-nil error exactly when reading the table
fails; in that case it returns, without a panic, the empty slice and the read
error; and whenever the read succeeds no content makes it return a non-nil
error. -/
theorem C15_error_iff_read_fails (pv6 : Str → IP) (file : Except GoError Str) :
    ((∃ flows err, Flows pv6 file = Except.ok (flows, some err)) ↔
      ∃ err, file = Except.error err) ∧
    (∀ err, file = Except.error err → Flows pv6 file = Except.ok ([], some err)) ∧
    (∀ data flows err, file = Except.ok data →
      Flows pv6 file = Except.ok (flows, err) → err = none) := by
  cases file with
  | error e => simp [Flows]
  | ok data =>
    have hkey : ∀ flows err, Flows pv6 (Except.ok data) = Except.ok (flows, err) → err = none := by
      intro flows err h
      unfold Flows at h
      simp only at h
      split at h
      · cases h
      · cases h; rfl
    refine ⟨⟨?_, ?_⟩, ?_, ?_⟩
    · rintro ⟨flows, err, h⟩
      have := hkey flows (some err) h
      cases this
    · rintro ⟨err, h⟩
      cases h
    · intro err h
      cases h
    · intro data2 flows err _ h
      exact hkey flows err h

/-- C15 at a failed read and at a readable table. -/
theorem C15_witness :
    Flows (fun _ => []) (Except.error (lit "open /proc/net/ip_conntrack: no such file")) =
      Except.ok ([], some (lit "open /proc/net/ip_conntrack: no such file")) ∧
    Flows (fun _ => []) (Except.ok (exampleLine ++ ['\n'])) = Except.ok ([exampleFlow], none) :=
  ⟨(C15_error_iff_read_fails (fun _ => [])
      (Except.error (lit "open /proc/net/ip_conntrack: no such file"))).2.1 _ rfl, rfl⟩

/-- C18 (as the code has it): for every `tcp` line with at least four tokens,
token 3 is the State and is also read by the token loop, like every token
from index 3 on: the flags are set by the flag tokens from index 3 on and the
tuples are built from the `key=value` tokens from index 3 on; a token 3 that
is neither a flag nor a `key=value` token contributes only the State, the
flags and tuples then come from the tokens after it. -/
theorem C18_state_token_is_scanned_too (pv6 : Str → IP) (line : Str)
    (h4 : 4 ≤ (Fields line).length) (htcp : (Fields line).getD 0 [] = lit "tcp") :
    ∃ flow : Flow,
      lineFlow pv6 (Fields line) = Except.ok flow ∧
      flow.State = (Fields line).getD 3 [] ∧
      flow.Unreplied = decide (lit "[UNREPLIED]" ∈ (Fields line).drop 3) ∧
      flow.Assured = decide (lit "[ASSURED]" ∈ (Fields line).drop 3) ∧
      flow.Original = mkSubflow pv6 (fun k => firstVal k (pairsOf (Fields line))) ∧
      flow.Reply = mkSubflow pv6 (fun k => laterVal k (pairsOf (Fields line))) ∧
      ((Fields line).getD 3 [] ≠ lit "[UNREPLIED]" →
        (Fields line).getD 3 [] ≠ lit "[ASSURED]" →
        kvOf ((Fields line).getD 3 []) = none →
        flow.Unreplied = decide (lit "[UNREPLIED]" ∈ (Fields line).drop 4) ∧
        flow.Assured = decide (lit "[ASSURED]" ∈ (Fields line).drop 4) ∧
        pairsOf (Fields line) = ((Fields line).drop 4).filterMap kvOf) := by
  have hne := Fields_ne_nil line
  generalize Fields line = fields at h4 htcp hne
  match fields, h4 with
  | a :: b :: c :: d :: rest, _ =>
    have henough : enoughTokens (a :: b :: c :: d :: rest) := ⟨by simp, fun _ => by simp⟩
    have hd : d ≠ [] := hne d (by simp)
    have ha : a = lit "tcp" := by simpa using htcp
    refine ⟨flowOf pv6 (a :: b :: c :: d :: rest), lineFlow_eq pv6 _ henough, ?_, ?_, ?_, ?_, ?_, ?_⟩
    · simp [flowOf, ha, finalState, hd]
    · simp only [flowOf, foldl_unreplied, Scan.init, Bool.false_or]
    · simp only [flowOf, foldl_assured, Scan.init, Bool.false_or]
    · simp only [flowOf, flowOf_original_map]
    · simp only [flowOf, flowOf_reply_map]
    · intro h1 h2 h3
      have h1b : ¬ lit "[UNREPLIED]" = d := fun e => h1 (by simpa using e.symm)
      have h2b : ¬ lit "[ASSURED]" = d := fun e => h2 (by simpa using e.symm)
      have h3b : kvOf d = none := by simpa using h3
      refine ⟨?_, ?_, ?_⟩
      · simp only [flowOf, foldl_unreplied, Scan.init, Bool.false_or]
        simp [h1b]
      · simp only [flowOf, foldl_assured, Scan.init, Bool.false_or]
        simp [h2b]
      · simp [pairsOf, List.filterMap_cons, h3b]

/-- C18 at the worked example line, whose token 3 is `ESTABLISHED`. -/
theorem C18_witness :
    4 ≤ (Fields exampleLine).length ∧ (Fields exampleLine).getD 0 [] = lit "tcp" ∧
    ∃ flow : Flow,
      lineFlow (fun _ => []) (Fields exampleLine) = Except.ok flow ∧
      flow.State = lit "ESTABLISHED" ∧ flow.Unreplied = false ∧ flow.Assured = false := by
  refine ⟨by decide, by decide, ?_⟩
  obtain ⟨flow, hflow, hs, hu, ha, _⟩ :=
    C18_state_token_is_scanned_too (fun _ => []) exampleLine (by decide) (by decide)
  exact ⟨flow, hflow, hs.trans (by decide), hu.trans (by decide), ha.trans (by decide)⟩

/-- C18 as stated fails: on the `tcp` line `tcp 6 30 [UNREPLIED]` token 3 sets
the Unreplied flag, on `tcp 6 30 [ASSURED]` it sets the Assured flag, and on
`tcp 6 30 src=10.0.0.1` it sets Original.Source. -/
theorem C18_counterexample :
    (∃ flow : Flow,
      lineFlow (fun _ => []) (Fields (lit "tcp 6 30 [UNREPLIED]")) = Except.ok flow ∧
      flow.State = lit "[UNREPLIED]" ∧ flow.Unreplied = true) ∧
    (∃ flow : Flow,
      lineFlow (fun _ => []) (Fields (lit "tcp 6 30 [ASSURED]")) = Except.ok flow ∧
      flow.State = lit "[ASSURED]" ∧ flow.Assured = true) ∧
    (∃ flow : Flow,
      lineFlow (fun _ => []) (Fields (lit "tcp 6 30 src=10.0.0.1")) = Except.ok flow ∧
      flow.State = lit "src=10.0.0.1" ∧ flow.Original.Source = IPv4 10 0 0 1 ∧
      flow.Original.Source ≠ []) :=
  ⟨⟨_, rfl, rfl, rfl⟩, ⟨_, rfl, rfl, rfl⟩, ⟨_, rfl, rfl, rfl, by decide⟩⟩

/-- C19: for every token list, inserting after the first four tokens (or
further on) a token that is neither `[UNREPLIED]` nor `[ASSURED]` and that
either does not contain exactly one `=` or is a `key=value` token whose key is
none of src, dst, sport, dport, packets, bytes, leaves the Flow unchanged: the
loop body returns the same Flow with and without the token. -/
theorem C19_unrecognised_token_ignored (pv6 : Str → IP) (pre post : List Str) (t : Str)
    (hpre : 4 ≤ pre.length)
    (hu : t ≠ lit "[UNREPLIED]") (ha : t ≠ lit "[ASSURED]")
    (ht : t.count '=' ≠ 1 ∨ ∃ k v, kvOf t = some (k, v) ∧ k ∉ tupleKeys) :
    ∃ flow : Flow,
      lineFlow pv6 (pre ++ post) = Except.ok flow ∧
      lineFlow pv6 (pre ++ t :: post) = Except.ok flow := by
  have he1 : enoughTokens (pre ++ post) := by
    constructor
    · simp; omega
    · intro _; simp; omega
  have he2 : enoughTokens (pre ++ t :: post) := by
    constructor
    · simp; omega
    · intro _; simp; omega
  refine ⟨flowOf pv6 (pre ++ post), lineFlow_eq pv6 _ he1, ?_⟩
  rw [lineFlow_eq pv6 _ he2, flowOf_insert pv6 pre post t hpre hu ha ht]

/-- C19 at the worked example with `mark=0`, `a=b=c` and `foo` inserted after
the state token. -/
theorem C19_witness :
    (lineFlow (fun _ => [])
        (Fields (lit "tcp 6 999 ESTABLISHED") ++ lit "mark=0" :: (Fields exampleLine).drop 4) =
      Except.ok exampleFlow) ∧
    (lineFlow (fun _ => [])
        (Fields (lit "tcp 6 999 ESTABLISHED") ++ lit "a=b=c" :: (Fields exampleLine).drop 4) =
      Except.ok exampleFlow) ∧
    (lineFlow (fun _ => [])
        (Fields (lit "tcp 6 999 ESTABLISHED") ++ lit "foo" :: (Fields exampleLine).drop 4) =
      Except.ok exampleFlow) := by
  have key : lineFlow (fun _ => [])
      (Fields (lit "tcp 6 999 ESTABLISHED") ++ (Fields exampleLine).drop 4) =
      Except.ok exampleFlow := rfl
  refine ⟨?_, ?_, ?_⟩
  · obtain ⟨flow, h1, h2⟩ := C19_unrecognised_token_ignored (fun _ => [])
      (Fields (lit "tcp 6 999 ESTABLISHED")) ((Fields exampleLine).drop 4) (lit "mark=0")
      (by decide) (by decide) (by decide)
      (Or.inr ⟨lit "mark", lit "0", rfl, by decide⟩)
    rw [h2, ← h1, key]
  · obtain ⟨flow, h1, h2⟩ := C19_unrecognised_token_ignored (fun _ => [])
      (Fields (lit "tcp 6 999 ESTABLISHED")) ((Fields exampleLine).drop 4) (lit "a=b=c")
      (by decide) (by decide) (by decide) (Or.inl (by decide))
    rw [h2, ← h1, key]
  · obtain ⟨flow, h1, h2⟩ := C19_unrecognised_token_ignored (fun _ => [])
      (Fields (lit "tcp 6 999 ESTABLISHED")) ((Fields exampleLine).drop 4) (lit "foo")
      (by decide) (by decide) (by decide) (Or.inl (by decide))
    rw [h2, ← h1, key]

end Conntrack
